import Mathlib

/-!
Verification development for the job-apply-claw repository.

Shallow embedding of the parts of the program relevant to the checked
properties:
  * the domain data model (`domain/models/__init__.py`);
  * the orchestrator `JobApplicationAgent.apply_to_job`
    (`domain/services/job_application.py`);
  * the agent loop `BrowserAgent.execute_task` (`infra/agent/browser_agent.py`);
  * the LLM tool-schema translation (`infra/llm/openai_tool_calling_client.py`)
    and the declared browser tools (`infra/browser/playwright_tools.py`);
  * the SQLite repositories (`infra/persistence/…`);
  * the Telegram status command (`infra/telegram/bot_listener.py`);
  * the facade password masking (`app/facade.py`).

Machine-level conventions: Python datetimes are modelled by `PyDateTime`
(an abstract wall-clock value plus an optional UTC offset); Python
exceptions are modelled by their `str(exc)` message; collaborator calls
whose outcome the program cannot control (browser, UI, LLM, filesystem)
are modelled by environment records whose fields give the outcome of each
call site, so theorems quantifying over the environment quantify over
every behaviour of those collaborators.
-/

/-- Model of a Python `datetime`: an abstract wall-clock reading together
with the optional fixed UTC offset carried by `tzinfo` (`none` = naive). -/
structure PyDateTime where
  wall : Int
  off  : Option Int
deriving DecidableEq

/-- Python `x or default` on an optional string: `None` and `""` are falsy. -/
def pyOrStr (x : Option String) (default : String) : String :=
  match x with
  | none => default
  | some s => if s = "" then default else s

/-- `domain/models`: `JobApplicationStatus` enumeration. -/
inductive JobApplicationStatus where
  | pending
  | applied
  | failed
  | skipped
deriving DecidableEq

namespace JobApplicationStatus

/-- The `.value` string of each enum member. -/
def value : JobApplicationStatus → String
  | pending => "pending"
  | applied => "applied"
  | failed => "failed"
  | skipped => "skipped"

/-- `JobApplicationStatus(s)`: parse a stored status string
(`None` models the `ValueError` raised on an unknown string). -/
def ofValue (s : String) : Option JobApplicationStatus :=
  if s = "pending" then some pending
  else if s = "applied" then some applied
  else if s = "failed" then some failed
  else if s = "skipped" then some skipped
  else none

/-- A terminal status is any status other than `pending`. -/
def isTerminal : JobApplicationStatus → Bool
  | pending => false
  | _ => true

end JobApplicationStatus

/-- `domain/models`: `JobApplicationRecord` dataclass. -/
structure JobApplicationRecord where
  id : String
  company_name : String
  job_title : String
  job_url : String
  status : JobApplicationStatus
  applied_at : Option PyDateTime := none
  failure_reason : Option String := none
  debug_run_id : Option String := none
deriving DecidableEq

/-- `domain/models`: `AccountCredential` dataclass. -/
structure AccountCredential where
  id : String
  portal : String
  tenant : String
  email : String
  password : String
  created_at : PyDateTime
  updated_at : PyDateTime
deriving DecidableEq

/-- `domain/models`: `RunContext` dataclass (the `log_directory` field is
irrelevant to the verified properties and omitted). -/
structure RunContext where
  run_id : String
  is_debug : Bool := false
deriving DecidableEq

/-- `domain/models`: `JobPostingRef` dataclass. -/
structure JobPostingRef where
  company_name : String
  job_title : String
  job_url : String
  job_board_type : Option String := none
deriving DecidableEq

/-- `app/facade.py`: `CredentialView` dataclass. -/
structure CredentialView where
  portal : String
  tenant : String
  email : String
  password_masked : String
deriving DecidableEq

namespace ApplicationFacade

/-- Character-list core of `ApplicationFacade._mask_secret`:
`if not value: return ""`, `if len(value) <= 3: return "*" * len(value)`,
else `value[0] + "*" * (len(value) - 2) + value[-1]`. -/
def maskChars (cs : List Char) : List Char :=
  if cs = [] then []
  else if cs.length ≤ 3 then List.replicate cs.length '*'
  else cs.take 1 ++ List.replicate (cs.length - 2) '*' ++ cs.drop (cs.length - 1)

/-- `ApplicationFacade._mask_secret` on strings. -/
def mask_secret (value : String) : String :=
  String.mk (maskChars value.data)

/-- `ApplicationFacade.get_credentials`: each stored credential is mapped to
a `CredentialView` whose password is masked (the repository `list_all`
result is passed in as a list). -/
def get_credentials (creds : List AccountCredential) : List CredentialView :=
  creds.map (fun cred =>
    { portal := cred.portal
      tenant := cred.tenant
      email := cred.email
      password_masked := mask_secret cred.password })

end ApplicationFacade

/-- A JSON-like value appearing in a tool parameter schema
(`type`/`description` strings, `enum` string arrays, integer defaults). -/
inductive JVal where
  | s (v : String)
  | n (v : Int)
  | arr (v : List String)
deriving DecidableEq

/-- A parameter schema: the key/value map of one parameter entry. -/
abbrev ParamSchema := List (String × JVal)

/-- `domain/models`: `ToolDefinition` dataclass; `parameters` is the
insertion-ordered property map. -/
structure ToolDefinition where
  name : String
  description : String
  parameters : List (String × ParamSchema)
deriving DecidableEq

/-- `infra/browser/playwright_tools.py`: the declared `TOOL_DEFINITIONS`. -/
def TOOL_DEFINITIONS : List ToolDefinition := [
  { name := "page_snapshot"
    description := "Return the accessibility tree of the current page as structured text."
    parameters := [] },
  { name := "screenshot"
    description := "Take a full-page screenshot and return the raw PNG bytes (base64 in messages)."
    parameters := [] },
  { name := "goto"
    description := "Navigate the browser to the given URL."
    parameters := [("url", [("type", .s "string"), ("description", .s "The URL to navigate to.")])] },
  { name := "click"
    description := "Click an element identified by visible text, ARIA role label, or CSS selector."
    parameters := [("target", [("type", .s "string"), ("description", .s "Button text, link text, or CSS selector.")])] },
  { name := "fill"
    description := "Fill a form field with the given value. Identifies the field by label, placeholder, name attribute, or CSS selector."
    parameters := [
      ("field", [("type", .s "string"), ("description", .s "Field label, placeholder, name, or CSS selector.")]),
      ("value", [("type", .s "string"), ("description", .s "The value to type into the field.")])] },
  { name := "select_option"
    description := "Select a dropdown option by its visible text or value."
    parameters := [
      ("field", [("type", .s "string"), ("description", .s "Dropdown label or selector.")]),
      ("value", [("type", .s "string"), ("description", .s "Option text or value to select.")])] },
  { name := "upload_file"
    description := "Upload a document to a file input field."
    parameters := [
      ("field", [("type", .s "string"), ("description", .s "File input label or selector.")]),
      ("file_type", [("type", .s "string"), ("enum", .arr ["resume", "cover_letter"]), ("description", .s "Which document to upload.")])] },
  { name := "scroll"
    description := "Scroll the page up or down."
    parameters := [("direction", [("type", .s "string"), ("enum", .arr ["up", "down"]), ("description", .s "Scroll direction.")])] },
  { name := "get_current_url"
    description := "Return the current page URL."
    parameters := [] },
  { name := "wait"
    description := "Wait for the page to finish loading or for a specified number of seconds."
    parameters := [("seconds", [("type", .s "integer"), ("description", .s "Seconds to wait (default 2)."), ("default", .n 2)])] },
  { name := "ask_user"
    description := "Ask the human user a question via Telegram and wait for their text reply."
    parameters := [("question", [("type", .s "string"), ("description", .s "The question to ask the user.")])] },
  { name := "report_status"
    description := "Send an informational status message to the user (no reply expected)."
    parameters := [("message", [("type", .s "string"), ("description", .s "The status message.")])] },
  { name := "done"
    description := "Signal that the current task is complete."
    parameters := [
      ("status", [("type", .s "string"), ("enum", .arr ["success", "failed", "skipped"]), ("description", .s "Outcome.")]),
      ("reason", [("type", .s "string"), ("description", .s "Short explanation of the outcome.")])] }
]

namespace OpenAIToolCallingClient

/-- `"default" in schema` on a parameter schema map. -/
def hasDefault (schema : ParamSchema) : Bool :=
  schema.any (fun kv => kv.1 = "default")

/-- The `function` object of the wire-format tool schema built by
`OpenAIToolCallingClient._to_openai_tool`. -/
structure OpenAIToolFunction where
  name : String
  description : String
  properties : List (String × ParamSchema)
  required : List String
deriving DecidableEq

/-- `OpenAIToolCallingClient._to_openai_tool`: copy each parameter schema
minus its `default` key into `properties`, and collect into `required`
exactly the parameters whose schema has no `default` key, in order. -/
def to_openai_tool (td : ToolDefinition) : OpenAIToolFunction :=
  { name := td.name
    description := td.description
    properties := td.parameters.map
      (fun p => (p.1, p.2.filter (fun kv => kv.1 ≠ "default")))
    required := (td.parameters.filter (fun p => ! hasDefault p.2)).map (fun p => p.1) }

/-- All `(tool, parameter)` pairs of a tool list whose schema carries a
`default` key: the optional parameters sent to the LLM. -/
def optionalParams (tds : List ToolDefinition) : List (String × String) :=
  (tds.map (fun td =>
    (td.parameters.filter (fun p => hasDefault p.2)).map (fun p => (td.name, p.1)))).flatten

end OpenAIToolCallingClient

/-- `infra/persistence/_datetime.py` / the copy in
`sqlite_job_application_repository.py`: `_dt_to_iso` attaches a UTC offset
to a naive datetime and serialises; serialisation is modelled by the
normalised `PyDateTime` itself because `datetime.isoformat` and
`datetime.fromisoformat` are mutually inverse on offset-aware values. -/
def dt_to_iso (dt : PyDateTime) : PyDateTime :=
  { wall := dt.wall, off := some (dt.off.getD 0) }

/-- `_iso_to_dt`: parse a stored timestamp, attaching UTC if it is naive. -/
def iso_to_dt (dt : PyDateTime) : PyDateTime :=
  { wall := dt.wall, off := some (dt.off.getD 0) }

namespace SQLiteJobApplicationRepository

/-- One row of the `applied_jobs` table. The `applied_at` column stores the
serialised timestamp or SQL `NULL`; `failure_reason` and `debug_run_id`
store plain text (the writer uses `""` as its null sentinel); `status`
stores the enum `.value` string. -/
structure Row where
  id : String
  company_name : String
  job_title : String
  job_url : String
  status : String
  applied_at : Option PyDateTime
  failure_reason : String
  debug_run_id : String
deriving DecidableEq

/-- `SQLiteJobApplicationRepository._record_to_row`: note the
`r.failure_reason or ""` and `r.debug_run_id or ""` sentinels. -/
def record_to_row (r : JobApplicationRecord) : Row :=
  { id := r.id
    company_name := r.company_name
    job_title := r.job_title
    job_url := r.job_url
    status := r.status.value
    applied_at := r.applied_at.map dt_to_iso
    failure_reason := r.failure_reason.getD ""
    debug_run_id := r.debug_run_id.getD "" }

/-- `SQLiteJobApplicationRepository._row_to_record`: empty strings in the
optional text columns are read back as `None`; an unknown status string
raises (modelled by `none`). -/
def row_to_record (row : Row) : Option JobApplicationRecord :=
  (JobApplicationStatus.ofValue row.status).map (fun st =>
    { id := row.id
      company_name := row.company_name
      job_title := row.job_title
      job_url := row.job_url
      status := st
      applied_at := row.applied_at.map iso_to_dt
      failure_reason := if row.failure_reason = "" then none else some row.failure_reason
      debug_run_id := if row.debug_run_id = "" then none else some row.debug_run_id })

/-- `add`: `INSERT` with `id` as primary key; a duplicate id raises
(modelled by `none`), otherwise the row is appended to the table. -/
def add (rows : List Row) (r : JobApplicationRecord) : Option (List Row) :=
  if rows.any (fun row => row.id = r.id) then none
  else some (rows ++ [record_to_row r])

/-- `get`: `SELECT … WHERE id = ?` then `fetchone`. -/
def get (rows : List Row) (record_id : String) : Option JobApplicationRecord :=
  (rows.find? (fun row => row.id = record_id)).bind row_to_record

/-- SQLite `ORDER BY applied_at DESC` comparison on the TEXT column:
`NULL` sorts below every value, so `DESC` puts nulls last; non-null ISO
strings of a uniform offset compare chronologically, modelled by
comparing the wall reading and then the offset. `appliedAtDescLe a b`
says `a` may come before `b` in the descending order. -/
def appliedAtDescLe (a b : Row) : Bool :=
  match a.applied_at, b.applied_at with
  | none, none => true
  | none, some _ => false
  | some _, none => true
  | some x, some y =>
      decide (y.wall < x.wall)
      || (decide (y.wall = x.wall) && decide (y.off.getD 0 ≤ x.off.getD 0))

/-- Whether a row's status column parses back to a status enum member. -/
def validStatusRow (row : Row) : Bool :=
  (JobApplicationStatus.ofValue row.status).isSome

/-- `list_all`: all rows ordered by `applied_at DESC` (the sort itself is
modelled by insertion sort over the SQL comparison above), decoded to
records; rows whose status column fails to parse would raise in Python
and are dropped here (writers only ever store valid `.value` strings). -/
def list_all (rows : List Row) : List JobApplicationRecord :=
  (List.insertionSort (fun a b => appliedAtDescLe a b = true) rows).filterMap
    row_to_record

end SQLiteJobApplicationRepository

namespace TelegramBot

/-- One line of the `/status` reply:
`f"- [{r.status.value}] {r.company_name}: {r.job_url}"`. -/
def statusLine (r : JobApplicationRecord) : String :=
  "- [" ++ r.status.value ++ "] " ++ r.company_name ++ ": " ++ r.job_url

/-- `TelegramBot._handle_status`: `records = self._job_repo.list_all()`;
empty table replies "No applications yet.", otherwise the reply lists
`records[-10:]` (the final ten entries of the ordered listing). -/
def handle_status (rows : List SQLiteJobApplicationRepository.Row) : String :=
  let records := SQLiteJobApplicationRepository.list_all rows
  if records = [] then "No applications yet."
  else "Recent applications:\n" ++
    String.intercalate "\n" ((records.drop (records.length - 10)).map statusLine)

/-- The `/status` reply the claim predicts: the FIRST ten records of the
`applied_at`-descending listing, i.e. the ten most recently applied. -/
def claimedStatusReply (rows : List SQLiteJobApplicationRepository.Row) : String :=
  let records := SQLiteJobApplicationRepository.list_all rows
  if records = [] then "No applications yet."
  else "Recent applications:\n" ++
    String.intercalate "\n" ((records.take 10).map statusLine)

/-- One applied row with the given identity, company and timestamp. -/
def mkAppliedRow (i c : String) (k : Int) : SQLiteJobApplicationRepository.Row :=
  { id := i, company_name := c, job_title := "T", job_url := "https://x.test/" ++ i
    status := "applied", applied_at := some ⟨k, some 0⟩
    failure_reason := "", debug_run_id := "" }

/-- Eleven applied rows, most recent first (`C01` applied last). -/
def elevenRows : List SQLiteJobApplicationRepository.Row :=
  [mkAppliedRow "r01" "C01" 11, mkAppliedRow "r02" "C02" 10,
   mkAppliedRow "r03" "C03" 9, mkAppliedRow "r04" "C04" 8,
   mkAppliedRow "r05" "C05" 7, mkAppliedRow "r06" "C06" 6,
   mkAppliedRow "r07" "C07" 5, mkAppliedRow "r08" "C08" 4,
   mkAppliedRow "r09" "C09" 3, mkAppliedRow "r10" "C10" 2,
   mkAppliedRow "r11" "C11" 1]

end TelegramBot

namespace SQLiteCredentialRepository

/-- One row of the `credentials` table (all columns `NOT NULL`). -/
structure CredRow where
  id : String
  portal : String
  tenant : String
  email : String
  password : String
  created_at : PyDateTime
  updated_at : PyDateTime
deriving DecidableEq

/-- Whether a row matches a credential on the `UNIQUE (portal, tenant,
email)` key. -/
def keyMatch (row : CredRow) (c : AccountCredential) : Bool :=
  row.portal = c.portal ∧ row.tenant = c.tenant ∧ row.email = c.email

/-- The freshly inserted row for a credential. -/
def insertRow (c : AccountCredential) : CredRow :=
  { id := c.id, portal := c.portal, tenant := c.tenant, email := c.email
    password := c.password
    created_at := dt_to_iso c.created_at
    updated_at := dt_to_iso c.updated_at }

/-- `DO UPDATE SET id=excluded.id, password=excluded.password,
updated_at=excluded.updated_at` applied to the conflicting row:
`created_at` is left untouched. -/
def applyUpdate (row : CredRow) (c : AccountCredential) : CredRow :=
  { row with id := c.id, password := c.password, updated_at := dt_to_iso c.updated_at }

/-- Replace the first row matching the credential key (the table holds at
most one thanks to the UNIQUE constraint). -/
def upsertGo (c : AccountCredential) : List CredRow → List CredRow
  | [] => [insertRow c]
  | row :: rest =>
      if keyMatch row c then applyUpdate row c :: rest
      else row :: upsertGo c rest

/-- `upsert`: `INSERT … ON CONFLICT(portal, tenant, email) DO UPDATE …`.
A primary-key collision with a row other than the conflict-target row
raises `IntegrityError` (observed behaviour of SQLite), modelled by
`none`; otherwise the key row is updated in place or a new row appended. -/
def upsert (rows : List CredRow) (c : AccountCredential) : Option (List CredRow) :=
  if rows.any (fun row => keyMatch row c) then
    if (rows.filter (fun row => ! keyMatch row c)).any (fun row => row.id = c.id)
    then none
    else some (upsertGo c rows)
  else
    if rows.any (fun row => row.id = c.id) then none
    else some (rows ++ [insertRow c])

/-- Number of rows carrying a given credential key. -/
def countKey (rows : List CredRow) (c : AccountCredential) : Nat :=
  rows.countP (fun row => keyMatch row c)

/-- `get`: `SELECT … WHERE portal = ? AND tenant = ? AND email = ?`,
decoded by `_row_to_credential` (timestamps re-parsed). -/
def getCred (rows : List CredRow) (portal tenant email : String) : Option AccountCredential :=
  (rows.find? (fun row => row.portal = portal ∧ row.tenant = tenant ∧ row.email = email)).map
    (fun row =>
      { id := row.id, portal := row.portal, tenant := row.tenant, email := row.email
        password := row.password
        created_at := iso_to_dt row.created_at
        updated_at := iso_to_dt row.updated_at })

end SQLiteCredentialRepository

namespace JobApplicationAgent

/-- `domain/services/captcha.py`: `CaptchaResult` dataclass. -/
structure CaptchaResult where
  solved : Bool
  failure_reason : Option String := none
deriving DecidableEq

/-- A repository operation performed by `apply_to_job` against the job
repository port, in execution order. -/
inductive RepoEvent where
  | add (r : JobApplicationRecord)
  | update (r : JobApplicationRecord)
deriving DecidableEq

deriving instance DecidableEq for Except

/-- The outcome of one `apply_to_job` invocation: the ordered repository
operations and either the returned record or the escaping exception. -/
structure ApplyOutcome where
  events : List RepoEvent
  result : Except String JobApplicationRecord
deriving DecidableEq

/-- Environment of one `apply_to_job` run: the outcome of every external
call site (browser, UI, debug store, nested services, clock). `none`
means the awaited call returns normally; `some e` means it raises an
exception whose `str` is `e`. Outcomes are fixed per call site, which
is fully general because the run visits each site at most once. -/
structure ApplyEnv where
  hasDebugManager : Bool
  debugStart : Option String
  goto : Option String
  wait_for_load : Option String
  captureStep : String → Option String
  detect_oauth_only_login : Except String Bool
  ensure_access : Option String
  fill_common_fields : Option String
  answer_questions : Option String
  fill_personal_questions : Option String
  handle_if_present : Except String CaptchaResult
  click_button : Option String
  send_info : String → Option String
  now : PyDateTime
  localOffset : Int

/-- `datetime.astimezone(timezone.utc)`: convert to UTC wall time, reading
a naive value as local time at the ambient offset. -/
def astimezoneUtc (localOffset : Int) (dt : PyDateTime) : PyDateTime :=
  { wall := dt.wall - dt.off.getD localOffset, off := some 0 }

/-- `JobApplicationAgent._capture_debug_step`: skipped when no debug
manager is configured; `DebugRunManager.capture_step` additionally
returns early when the run is not a debug run. -/
def captureDebugStep (env : ApplyEnv) (ctx : RunContext) (stepName : String) :
    Option String :=
  if env.hasDebugManager then
    if ctx.is_debug then env.captureStep stepName else none
  else none

/-- The pending record constructed at the top of `apply_to_job`. -/
def pendingRecord (job : JobPostingRef) (ctx : RunContext) (rid : String) :
    JobApplicationRecord :=
  { id := rid
    company_name := job.company_name
    job_title := job.job_title
    job_url := job.job_url
    status := .pending
    debug_run_id := if ctx.is_debug then some ctx.run_id else none }

/-- `replace(record, status=FAILED, failure_reason=reason)`. -/
def failedOf (record : JobApplicationRecord) (reason : String) : JobApplicationRecord :=
  { record with status := .failed, failure_reason := some reason }

/-- `replace(record, status=SKIPPED, failure_reason="Debug mode enabled: final submit skipped")`. -/
def skippedOf (record : JobApplicationRecord) : JobApplicationRecord :=
  { record with
    status := .skipped
    failure_reason := some "Debug mode enabled: final submit skipped" }

/-- `replace(record, status=APPLIED, applied_at=clock.now().astimezone(utc))`. -/
def appliedOf (record : JobApplicationRecord) (t : PyDateTime) : JobApplicationRecord :=
  { record with status := .applied, applied_at := some t }

/-- The `ui.send_info` message of `_finalize_failure`. -/
def failureMessage (record : JobApplicationRecord) (reason : String) : String :=
  "Failed to apply for " ++ record.company_name ++ " - " ++ record.job_title ++
    ". Reason: " ++ reason

/-- The `ui.send_info` message of the debug-skip branch. -/
def debugMessage (job : JobPostingRef) : String :=
  "[DEBUG] Prepared application for " ++ job.company_name ++
    " but skipped final submit."

/-- The `ui.send_info` message of the submitted branch. -/
def appliedMessage (job : JobPostingRef) : String :=
  "Application submitted for " ++ job.company_name ++ " - " ++ job.job_title ++ "."

/-- `JobApplicationAgent._finalize_failure`: mark the original record
failed, update the repository, then notify the UI (whose exception, if
any, escapes to the caller). -/
def finalize_failure (env : ApplyEnv) (record : JobApplicationRecord)
    (reason : String) : List RepoEvent × Except String JobApplicationRecord :=
  let failed := failedOf record reason
  ([RepoEvent.update failed],
    match env.send_info (failureMessage record reason) with
    | none => .ok failed
    | some e => .error e)

/-- Sequence an awaited call that returns no useful value: on exception the
surrounding `try` body stops with that exception. -/
def step (o : Option String)
    (k : Unit → List RepoEvent × Except String JobApplicationRecord) :
    List RepoEvent × Except String JobApplicationRecord :=
  match o with
  | some e => ([], .error e)
  | none => k ()

/-- The `try` body of `apply_to_job`, from `browser.goto` to the final
`return`. The returned events and `Except` feed the `except` clause. -/
def tryBody (env : ApplyEnv) (job : JobPostingRef) (ctx : RunContext)
    (record : JobApplicationRecord) :
    List RepoEvent × Except String JobApplicationRecord :=
  step env.goto fun _ =>
  step env.wait_for_load fun _ =>
  step (captureDebugStep env ctx "page_loaded") fun _ =>
  match env.detect_oauth_only_login with
  | .error e => ([], .error e)
  | .ok true => finalize_failure env record "OAuth-only login cannot be automated"
  | .ok false =>
  step env.ensure_access fun _ =>
  step (captureDebugStep env ctx "account_flow") fun _ =>
  step env.fill_common_fields fun _ =>
  step env.answer_questions fun _ =>
  step env.fill_personal_questions fun _ =>
  step (captureDebugStep env ctx "form_filled") fun _ =>
  match env.handle_if_present with
  | .error e => ([], .error e)
  | .ok captcha_result =>
  if ¬ captcha_result.solved then
    finalize_failure env record
      (pyOrStr captcha_result.failure_reason "Captcha handling failed")
  else
  step (captureDebugStep env ctx "captcha_done") fun _ =>
  if ctx.is_debug then
    let skipped := skippedOf record
    ([RepoEvent.update skipped],
      match env.send_info (debugMessage job) with
      | none => .ok skipped
      | some e => .error e)
  else
  step env.click_button fun _ =>
  let applied := appliedOf record (astimezoneUtc env.localOffset env.now)
  ([RepoEvent.update applied],
    match env.send_info (appliedMessage job) with
    | none => .ok applied
    | some e => .error e)

/-- `JobApplicationAgent.apply_to_job`: build and persist the pending
record, optionally start the debug run (outside the `try`), run the
`try` body, and map any exception through `_finalize_failure`. -/
def apply_to_job (env : ApplyEnv) (job : JobPostingRef) (ctx : RunContext)
    (rid : String) : ApplyOutcome :=
  let record := pendingRecord job ctx rid
  let afterStart : Option String :=
    if env.hasDebugManager then env.debugStart else none
  match afterStart with
  | some e => { events := [RepoEvent.add record], result := .error e }
  | none =>
      let body := tryBody env job ctx record
      match body.2 with
      | .ok r => { events := RepoEvent.add record :: body.1, result := .ok r }
      | .error e =>
          let fin := finalize_failure env record e
          { events := RepoEvent.add record :: (body.1 ++ fin.1), result := fin.2 }

/-- The records written to the repository by a run, in order. -/
def writtenRecords (o : ApplyOutcome) : List JobApplicationRecord :=
  o.events.map (fun ev => match ev with | .add r => r | .update r => r)

/-- The records added by a run. -/
def addedRecords (o : ApplyOutcome) : List JobApplicationRecord :=
  o.events.filterMap (fun ev => match ev with | .add r => some r | .update _ => none)

/-- The records passed to `update` by a run. -/
def updatedRecords (o : ApplyOutcome) : List JobApplicationRecord :=
  o.events.filterMap (fun ev => match ev with | .add _ => none | .update r => some r)

/-- The records a run persists or returns. -/
def observableRecords (o : ApplyOutcome) : List JobApplicationRecord :=
  writtenRecords o ++ (match o.result with | .ok r => [r] | .error _ => [])

end JobApplicationAgent

namespace BrowserAgent

/-- Tool-call arguments: an ordered string key/value map (the values the
loop inspects — `status`, `reason` — are strings; other values are inert
and modelled by their string form). -/
abbrev Args := List (String × String)

/-- `domain/models`: `ToolCall` dataclass. -/
structure ToolCall where
  name : String
  arguments : Args
deriving DecidableEq

/-- `domain/models`: `LLMToolResponse`; `tool_calls = None` and
`tool_calls = []` behave identically under `if not response.tool_calls`
and are both modelled by `[]`. -/
structure LLMToolResponse where
  tool_calls : List ToolCall := []
  text : Option String := none
deriving DecidableEq

/-- `domain/models`: `AgentStep` dataclass (screenshot field unused by the
loop and omitted). -/
structure AgentStep where
  step_number : Nat
  tool_name : String
  tool_args : Args
  tool_result : String
deriving DecidableEq

/-- `domain/models`: `AgentTask`; `objective` stands in for the initial
user message (the prompt construction from `task.context` carries no
control-flow information), with the spec default `max_steps = 50`. -/
structure AgentTask where
  objective : String
  max_steps : Nat := 50
  debug : Bool := false
deriving DecidableEq

/-- `domain/models`: `AgentResult` dataclass. -/
structure AgentResult where
  status : String
  reason : Option String := none
  data : Args := []
  steps_taken : List AgentStep := []
deriving DecidableEq

/-- Conversation entries appended by the loop. The source serialises tool
arguments with `json.dumps`; the arguments are kept structured here. -/
inductive ChatMsg where
  | system (content : String)
  | user (content : String)
  | assistantText (content : String)
  | assistantToolCall (call_id name : String) (arguments : Args)
  | toolResult (call_id content : String)
deriving DecidableEq

/-- Environment of one `execute_task` run: the LLM response for each turn
index and the result string of each tool execution, indexed by how many
tool calls have been executed before it. Any deterministic behaviour of
the real LLM and tool executor is realised by some such environment. -/
structure AgentEnv where
  llm : Nat → LLMToolResponse
  execResult : Nat → String

/-- The stable call id `call_{step}_{name}`. -/
def callId (step_num : Nat) (name : String) : String :=
  "call_" ++ toString step_num ++ "_" ++ name

/-- The `done` result: `status = args.get("status", "success")`,
`reason = args.get("reason")`, `data = args`. -/
def doneResult (tc : ToolCall) (steps : List AgentStep) : AgentResult :=
  { status := (tc.arguments.lookup "status").getD "success"
    reason := tc.arguments.lookup "reason"
    data := tc.arguments
    steps_taken := steps }

/-- The inner `for tc in response.tool_calls` loop of one turn: a `done`
call returns immediately with the steps accumulated so far; any other
call is executed, recorded as an `AgentStep` numbered with the current
turn index, and mirrored into the message history. -/
def runCalls (env : AgentEnv) (step_num : Nat) :
    List ToolCall → List ChatMsg → List AgentStep →
    (List ChatMsg × List AgentStep) ⊕ AgentResult
  | [], msgs, steps => .inl (msgs, steps)
  | tc :: rest, msgs, steps =>
      if tc.name = "done" then .inr (doneResult tc steps)
      else
        let result_text := env.execResult steps.length
        let stepRec : AgentStep :=
          { step_number := step_num, tool_name := tc.name
            tool_args := tc.arguments, tool_result := result_text }
        runCalls env step_num rest
          (msgs ++ [ChatMsg.assistantToolCall (callId step_num tc.name) tc.name tc.arguments,
                    ChatMsg.toolResult (callId step_num tc.name) result_text])
          (steps ++ [stepRec])

/-- The reason string of the step-budget result:
`f"Agent exceeded maximum steps ({task.max_steps})"`. -/
def maxStepsReason (max_steps : Nat) : String :=
  "Agent exceeded maximum steps (" ++ toString max_steps ++ ")"

/-- The `for step_num in range(task.max_steps)` loop; `remaining` counts
the turns left, `step_num` the current turn index. A text-only response
appends an assistant message (when the text is non-empty — `if
response.text:`) and consumes the turn. -/
def loop (env : AgentEnv) (task : AgentTask) :
    Nat → Nat → List ChatMsg → List AgentStep → AgentResult
  | 0, _, _, steps =>
      { status := "failed", reason := some (maxStepsReason task.max_steps)
        data := [], steps_taken := steps }
  | remaining + 1, step_num, msgs, steps =>
      let response := env.llm step_num
      match response.tool_calls with
      | [] =>
          let msgs' := match response.text with
            | some t => if t = "" then msgs else msgs ++ [ChatMsg.assistantText t]
            | none => msgs
          loop env task remaining (step_num + 1) msgs' steps
      | tc :: rest =>
          match runCalls env step_num (tc :: rest) msgs steps with
          | .inr result => result
          | .inl (msgs', steps') => loop env task remaining (step_num + 1) msgs' steps'

/-- The system prompt seeded into the history (content inert for the
verified properties). -/
def SYSTEM_PROMPT : String := "system prompt"

/-- `BrowserAgent.execute_task`. -/
def execute_task (env : AgentEnv) (task : AgentTask) : AgentResult :=
  loop env task task.max_steps 0
    [ChatMsg.system SYSTEM_PROMPT, ChatMsg.user task.objective] []

/-- Specification of the steps one turn contributes when none of its tool
calls is `done`: every call becomes a step numbered with the turn index,
with tool results drawn from consecutive execution indices. -/
def callSteps (env : AgentEnv) (step_num base : Nat) : List ToolCall → List AgentStep
  | [] => []
  | tc :: rest =>
      { step_number := step_num, tool_name := tc.name
        tool_args := tc.arguments, tool_result := env.execResult base } ::
      callSteps env step_num (base + 1) rest

/-- Specification of all steps accumulated over `remaining` turns starting
at turn `s` with `base` tool calls already executed, when the LLM never
emits `done` in those turns. -/
def stepsSegment (env : AgentEnv) : Nat → Nat → Nat → List AgentStep
  | _, 0, _ => []
  | s, remaining + 1, base =>
      let t := callSteps env s base (env.llm s).tool_calls
      t ++ stepsSegment env (s + 1) remaining (base + t.length)

/-- The environment truncated after `m` turns: from turn `m` on, the LLM
would answer with an immediate `done`. Used to state that the loop never
consults turns beyond the step budget. -/
def truncEnv (env : AgentEnv) (m : Nat) : AgentEnv :=
  { llm := fun n => if n < m then env.llm n
      else { tool_calls := [{ name := "done", arguments := [("status", "success")] }] }
    execResult := env.execResult }

/-- The step-numbering property the spec claims: the step numbers of
`steps_taken` are `0, 1, 2, …` in order, without gaps or repetitions. -/
def stepNumbersAreRange (r : AgentResult) : Prop :=
  r.steps_taken.map AgentStep.step_number = List.range r.steps_taken.length

/-- LLM script: a text-only turn, then a turn carrying two `goto` calls,
then `done`. -/
def envTextThenTwoCalls : AgentEnv :=
  { llm := fun n =>
      if n = 0 then { text := some "Thinking..." }
      else if n = 1 then
        { tool_calls := [
            { name := "goto", arguments := [("url", "https://x.test/a")] },
            { name := "goto", arguments := [("url", "https://x.test/b")] }] }
      else { tool_calls := [{ name := "done", arguments := [("status", "success")] }] }
    execResult := fun _ => "ok" }

/-- LLM script that answers every turn with a single `goto` call and
never emits `done`. -/
def envGotoForever : AgentEnv :=
  { llm := fun _ =>
      { tool_calls := [{ name := "goto", arguments := [("url", "https://x.test/a")] }] }
    execResult := fun _ => "ok:goto" }

end BrowserAgent

namespace JobApplicationAgent

/-- A record obtained from `record` by one of the three terminal
`replace(...)` mutations of `apply_to_job`. -/
def TerminalFrom (record r : JobApplicationRecord) : Prop :=
  (∃ reason, r = failedOf record reason)
  ∨ r = skippedOf record
  ∨ (∃ t, r = appliedOf record t)

/-- Shape of the value of the `try` body: either no repository event and a
propagating exception, or exactly one terminal update which is returned,
or exactly one terminal update followed by an exception that some
`ui.send_info` call raised. -/
def TryShape (env : ApplyEnv) (record : JobApplicationRecord)
    (out : List RepoEvent × Except String JobApplicationRecord) : Prop :=
  (∃ e, out = ([], .error e))
  ∨ (∃ r, TerminalFrom record r ∧ out = ([RepoEvent.update r], .ok r))
  ∨ (∃ r m e, TerminalFrom record r ∧ out = ([RepoEvent.update r], .error e)
      ∧ env.send_info m = some e)

/-- Shape of a full `apply_to_job` outcome: the pending `add` always comes
first; afterwards either `debug_manager.start` raised (no update), or one
terminal update happened (returned, or its UI send raised), or a UI send
raised after a first terminal update and the `except` clause wrote a
second, `failed`, update. -/
def ApplyShape (env : ApplyEnv) (job : JobPostingRef) (ctx : RunContext)
    (rid : String) (o : ApplyOutcome) : Prop :=
  (∃ e, o.events = [RepoEvent.add (pendingRecord job ctx rid)]
      ∧ o.result = .error e
      ∧ env.hasDebugManager = true ∧ env.debugStart = some e)
  ∨ (∃ r, TerminalFrom (pendingRecord job ctx rid) r
      ∧ o.events = [RepoEvent.add (pendingRecord job ctx rid), RepoEvent.update r]
      ∧ o.result = .ok r)
  ∨ (∃ r m e, TerminalFrom (pendingRecord job ctx rid) r
      ∧ o.events = [RepoEvent.add (pendingRecord job ctx rid), RepoEvent.update r]
      ∧ o.result = .error e ∧ env.send_info m = some e)
  ∨ (∃ r m e, TerminalFrom (pendingRecord job ctx rid) r
      ∧ env.send_info m = some e
      ∧ o.events = [RepoEvent.add (pendingRecord job ctx rid), RepoEvent.update r,
          RepoEvent.update (failedOf (pendingRecord job ctx rid) e)]
      ∧ (o.result = .ok (failedOf (pendingRecord job ctx rid) e)
         ∨ ∃ m2 e2, o.result = .error e2 ∧ env.send_info m2 = some e2))

/-- The status/timestamp biconditionals of the spec, decidably:
`status = applied ⇔ applied_at set` and
`status ∈ {failed, skipped} ⇔ failure_reason set`. -/
def recordInvariant (r : JobApplicationRecord) : Bool :=
  (decide (r.status = JobApplicationStatus.applied) == r.applied_at.isSome)
  && (decide (r.status = JobApplicationStatus.failed
        ∨ r.status = JobApplicationStatus.skipped) == r.failure_reason.isSome)

/-- The record-monotonicity property claimed by the spec for one run:
exactly one pending `add` and exactly one terminal `update`. -/
def recordMonotonicityClaim (o : ApplyOutcome) : Bool :=
  ((addedRecords o).length == 1)
  && (addedRecords o).all (fun r => r.status == JobApplicationStatus.pending)
  && ((updatedRecords o).length == 1)
  && (updatedRecords o).all (fun r => r.status.isTerminal)

/-- A concrete job posting used in counterexample runs. -/
def jobC : JobPostingRef :=
  { company_name := "Acme", job_title := "Dev", job_url := "https://acme.test/jobs/1" }

/-- Environment of a run in which everything succeeds except that the
`ui.send_info` call announcing the submitted application raises. -/
def envSendRaises : ApplyEnv :=
  { hasDebugManager := false
    debugStart := none
    goto := none
    wait_for_load := none
    captureStep := fun _ => none
    detect_oauth_only_login := .ok false
    ensure_access := none
    fill_common_fields := none
    answer_questions := none
    fill_personal_questions := none
    handle_if_present := .ok { solved := true }
    click_button := none
    send_info := fun m => if m = appliedMessage jobC then some "boom" else none
    now := ⟨0, some 0⟩
    localOffset := 0 }

/-- Environment of an entirely successful debug-mode run. -/
def envDebugRun : ApplyEnv :=
  { hasDebugManager := true
    debugStart := none
    goto := none
    wait_for_load := none
    captureStep := fun _ => none
    detect_oauth_only_login := .ok false
    ensure_access := none
    fill_common_fields := none
    answer_questions := none
    fill_personal_questions := none
    handle_if_present := .ok { solved := true }
    click_button := none
    send_info := fun _ => none
    now := ⟨0, some 0⟩
    localOffset := 0 }

/-- Environment of an entirely successful non-debug run. -/
def envHappyRun : ApplyEnv :=
  { envSendRaises with send_info := fun _ => none }

end JobApplicationAgent

section FacadeLemmas

open ApplicationFacade

lemma drop_length_sub_one_eq (c : Char) (rest : List Char) :
    (c :: rest).drop ((c :: rest).length - 1) = [rest.getLastD c] := by
  induction rest generalizing c with
  | nil => rfl
  | cons b t ih =>
      rw [List.getLastD_cons]
      have h1 : (c :: b :: t).length - 1 = ((b :: t).length - 1) + 1 := by simp
      rw [h1, List.drop_succ_cons]
      exact ih b

lemma maskChars_length (cs : List Char) : (maskChars cs).length = cs.length := by
  unfold maskChars
  by_cases hnil : cs = []
  · simp [hnil]
  · by_cases hle : cs.length ≤ 3
    · simp [hnil, hle]
    · have hlen : 1 ≤ cs.length := by
        cases cs with
        | nil => exact absurd rfl hnil
        | cons a t => simp
      simp only [if_neg hnil, if_neg hle]
      simp [List.length_take, List.length_drop]
      omega

lemma length_mk_data (l : List Char) : (String.mk l).length = l.length := rfl

lemma data_mask_secret (v : String) : (mask_secret v).data = maskChars v.data := rfl

end FacadeLemmas

/-- Claim C10: `get_credentials` masks every stored password with
`_mask_secret`, and the mask preserves the length of the password,
is empty for the empty password, is all asterisks for lengths one to
three, and for longer passwords keeps exactly the first and last
characters around a run of asterisks. -/
theorem claim_C10 (creds : List AccountCredential) (v : String) :
    ((ApplicationFacade.get_credentials creds).map CredentialView.password_masked
        = creds.map (fun c => ApplicationFacade.mask_secret c.password))
    ∧ (ApplicationFacade.mask_secret v).length = v.length
    ∧ (v.length = 0 → ApplicationFacade.mask_secret v = "")
    ∧ (1 ≤ v.length → v.length ≤ 3 →
        ApplicationFacade.mask_secret v = String.mk (List.replicate v.length '*'))
    ∧ (3 < v.length →
        ∃ c rest, v.data = c :: rest ∧
          ApplicationFacade.mask_secret v =
            String.mk (c :: (List.replicate (v.length - 2) '*' ++ [rest.getLastD c]))) := by
  have hdata : v.length = v.data.length := rfl
  refine ⟨?_, ?_, ?_, ?_, ?_⟩
  · simp [ApplicationFacade.get_credentials]
  · rw [show ApplicationFacade.mask_secret v = String.mk (ApplicationFacade.maskChars v.data) from rfl]
    rw [length_mk_data, maskChars_length]
    exact hdata.symm
  · intro h0
    have hl : v.data.length = 0 := by rw [← hdata]; exact h0
    have hnil : v.data = [] := List.length_eq_zero.mp hl
    show String.mk (ApplicationFacade.maskChars v.data) = ""
    rw [hnil]
    rfl
  · intro h1 h3
    show String.mk (ApplicationFacade.maskChars v.data) = _
    have hnil : v.data ≠ [] := by
      intro h
      rw [hdata, h] at h1
      simp at h1
    unfold ApplicationFacade.maskChars
    rw [if_neg hnil, if_pos (by rw [← hdata]; exact h3), ← hdata]
  · intro h3
    obtain ⟨c, rest, hcr⟩ : ∃ c rest, v.data = c :: rest := by
      cases h : v.data with
      | nil => rw [hdata, h] at h3; simp at h3
      | cons a t => exact ⟨a, t, rfl⟩
    refine ⟨c, rest, hcr, ?_⟩
    show String.mk (ApplicationFacade.maskChars v.data) = _
    unfold ApplicationFacade.maskChars
    have hnil : v.data ≠ [] := by rw [hcr]; simp
    have hgt : ¬ v.data.length ≤ 3 := by rw [← hdata]; omega
    rw [if_neg hnil, if_neg hgt, hcr]
    have htake : (c :: rest).take 1 = [c] := rfl
    have hdrop := drop_length_sub_one_eq c rest
    rw [htake, hdrop]
    have : (c :: rest).length = v.length := by rw [hdata, hcr]
    rw [this]
    rfl

/-- Witness for claim C10 at a concrete credential list and password. -/
theorem claim_C10_witness :
    ((ApplicationFacade.get_credentials
        [{ id := "cred-1", portal := "greenhouse", tenant := "acme",
           email := "u@x.test", password := "s3cret",
           created_at := ⟨0, some 0⟩, updated_at := ⟨0, some 0⟩ }]).map
        CredentialView.password_masked = ["s****t"])
    ∧ ApplicationFacade.mask_secret "abc" = "***"
    ∧ ApplicationFacade.mask_secret "" = "" := by
  have h := claim_C10
    [{ id := "cred-1", portal := "greenhouse", tenant := "acme",
       email := "u@x.test", password := "s3cret",
       created_at := ⟨0, some 0⟩, updated_at := ⟨0, some 0⟩ }] "s3cret"
  have h2 := claim_C10 ([] : List AccountCredential) "abc"
  have h3 := claim_C10 ([] : List AccountCredential) ""
  refine ⟨?_, ?_, ?_⟩
  · rw [h.1]
    decide
  · have := h2.2.2.2.1 (by decide) (by decide)
    rw [this]
    decide
  · exact h3.2.2.1 (by decide)

section ToolSchemaLemmas

lemma nodupKeys_schema_eq {l : List (String × ParamSchema)}
    (h : (l.map Prod.fst).Nodup) {n : String} {s1 s2 : ParamSchema}
    (h1 : (n, s1) ∈ l) (h2 : (n, s2) ∈ l) : s1 = s2 := by
  induction l with
  | nil => simp at h1
  | cons hd tl ih =>
      simp only [List.map_cons, List.nodup_cons] at h
      obtain ⟨hnotin, hnod⟩ := h
      rcases List.mem_cons.mp h1 with e1 | m1 <;> rcases List.mem_cons.mp h2 with e2 | m2
      · rw [← e1] at e2; exact (Prod.mk.injEq _ _ _ _ ▸ e2).2.symm
      · exfalso
        apply hnotin
        have : n = hd.1 := by rw [← e1]
        rw [← this]
        exact List.mem_map.mpr ⟨(n, s2), m2, rfl⟩
      · exfalso
        apply hnotin
        have : n = hd.1 := by rw [← e2]
        rw [← this]
        exact List.mem_map.mpr ⟨(n, s1), m1, rfl⟩
      · exact ih hnod m1 m2

end ToolSchemaLemmas

/-- Claim C6: in the wire-format tool schema built by `_to_openai_tool`, a
parameter name appears in the `required` array exactly when its schema
map has no `default` key; among the declared browser tools the only
parameter carrying a `default` key is `wait.seconds`, so every other
declared parameter is required. -/
theorem claim_C6 :
    (∀ td : ToolDefinition, (td.parameters.map Prod.fst).Nodup →
      ∀ pname schema, (pname, schema) ∈ td.parameters →
        (pname ∈ (OpenAIToolCallingClient.to_openai_tool td).required
          ↔ OpenAIToolCallingClient.hasDefault schema = false))
    ∧ OpenAIToolCallingClient.optionalParams TOOL_DEFINITIONS = [("wait", "seconds")]
    ∧ (TOOL_DEFINITIONS.map (fun td => (OpenAIToolCallingClient.to_openai_tool td).required)) =
        [[], [], ["url"], ["target"], ["field", "value"], ["field", "value"],
         ["field", "file_type"], ["direction"], [], [], ["question"], ["message"],
         ["status", "reason"]] := by
  refine ⟨?_, by decide, by decide⟩
  intro td hnodup pname schema hmem
  simp only [OpenAIToolCallingClient.to_openai_tool, List.mem_map, List.mem_filter]
  constructor
  · rintro ⟨⟨n, s⟩, ⟨hin, hflt⟩, hfst⟩
    have hn : n = pname := hfst
    rw [hn] at hin
    have : s = schema := nodupKeys_schema_eq hnodup hin hmem
    rw [this] at hflt
    simpa using hflt
  · intro hnd
    exact ⟨(pname, schema), ⟨hmem, by simpa using hnd⟩, rfl⟩

/-- Witness for claim C6 at the declared `wait` and `goto` tools: `seconds`
has a default and is not required, `url` has none and is required. -/
theorem claim_C6_witness :
    (("url" ∈ (OpenAIToolCallingClient.to_openai_tool
        { name := "goto"
          description := "Navigate the browser to the given URL."
          parameters := [("url", [("type", .s "string"),
            ("description", .s "The URL to navigate to.")])] }).required)
      ↔ OpenAIToolCallingClient.hasDefault
          [("type", .s "string"), ("description", .s "The URL to navigate to.")] = false)
    ∧ (("seconds" ∈ (OpenAIToolCallingClient.to_openai_tool
        { name := "wait"
          description := "Wait for the page to finish loading or for a specified number of seconds."
          parameters := [("seconds", [("type", .s "integer"),
            ("description", .s "Seconds to wait (default 2)."), ("default", .n 2)])] }).required)
      ↔ OpenAIToolCallingClient.hasDefault
          [("type", .s "integer"), ("description", .s "Seconds to wait (default 2)."),
            ("default", .n 2)] = false) := by
  constructor
  · exact claim_C6.1
      { name := "goto"
        description := "Navigate the browser to the given URL."
        parameters := [("url", [("type", .s "string"),
          ("description", .s "The URL to navigate to.")])] }
      (by decide) "url" _ (by simp)
  · exact claim_C6.1
      { name := "wait"
        description := "Wait for the page to finish loading or for a specified number of seconds."
        parameters := [("seconds", [("type", .s "integer"),
          ("description", .s "Seconds to wait (default 2)."), ("default", .n 2)])] }
      (by decide) "seconds" _ (by simp)

section JobRepoLemmas

open SQLiteJobApplicationRepository

lemma ofValue_value (st : JobApplicationStatus) :
    JobApplicationStatus.ofValue st.value = some st := by
  cases st <;> decide

lemma find_append_fresh (rows : List Row) (r : JobApplicationRecord)
    (h : ∀ row ∈ rows, row.id ≠ r.id) :
    (rows ++ [record_to_row r]).find? (fun row => row.id = r.id)
      = some (record_to_row r) := by
  rw [List.find?_append]
  have h1 : rows.find? (fun row => row.id = r.id) = none :=
    List.find?_eq_none.mpr (fun x hx => by simp [h x hx])
  rw [h1]
  simp [record_to_row]

lemma add_fresh (rows : List Row) (r : JobApplicationRecord)
    (h : ∀ row ∈ rows, row.id ≠ r.id) :
    add rows r = some (rows ++ [record_to_row r]) := by
  unfold add
  have : rows.any (fun row => row.id = r.id) = false := by
    simp only [List.any_eq_false]
    intro x hx
    simp [h x hx]
  rw [this]
  rfl

end JobRepoLemmas

/-- Claim C9: `add` then `get` round-trips a record exactly when its
optional text fields are null or non-empty and its timestamp carries an
explicit offset; a `failure_reason` equal to the empty string is stored
as the `""` sentinel and read back as null. -/
theorem claim_C9 (rows : List SQLiteJobApplicationRepository.Row)
    (r : JobApplicationRecord)
    (hfresh : ∀ row ∈ rows, row.id ≠ r.id) :
    ((r.failure_reason = none ∨ ∃ s, r.failure_reason = some s ∧ s ≠ "") →
      (r.debug_run_id = none ∨ ∃ s, r.debug_run_id = some s ∧ s ≠ "") →
      (r.applied_at = none ∨ ∃ d, r.applied_at = some d ∧ d.off.isSome) →
      ∃ rows', SQLiteJobApplicationRepository.add rows r = some rows' ∧
        SQLiteJobApplicationRepository.get rows' r.id = some r)
    ∧ (r.failure_reason = some "" →
      ∃ rows', SQLiteJobApplicationRepository.add rows r = some rows' ∧
        ∃ r', SQLiteJobApplicationRepository.get rows' r.id = some r' ∧
          r'.failure_reason = none) := by
  have hget : SQLiteJobApplicationRepository.get
      (rows ++ [SQLiteJobApplicationRepository.record_to_row r]) r.id
      = SQLiteJobApplicationRepository.row_to_record
          (SQLiteJobApplicationRepository.record_to_row r) := by
    unfold SQLiteJobApplicationRepository.get
    rw [find_append_fresh rows r hfresh]
    rfl
  constructor
  · intro hf hd ha
    refine ⟨_, add_fresh rows r hfresh, ?_⟩
    rw [hget]
    unfold SQLiteJobApplicationRepository.row_to_record
      SQLiteJobApplicationRepository.record_to_row
    simp only [ofValue_value, Option.map_some]
    have hts : (r.applied_at.map dt_to_iso).map iso_to_dt = r.applied_at := by
      rcases ha with h0 | ⟨d, hd1, hd2⟩
      · rw [h0]; rfl
      · rw [hd1]
        have hrt : iso_to_dt (dt_to_iso d) = d := by
          rcases d with ⟨w, doff⟩
          cases doff with
          | none => simp at hd2
          | some o => rfl
        simp [hrt]
    have hfr : (if r.failure_reason.getD "" = "" then none
        else some (r.failure_reason.getD "")) = r.failure_reason := by
      rcases hf with h0 | ⟨s, hs1, hs2⟩
      · rw [h0]; rfl
      · rw [hs1]; simp [hs2]
    have hdr : (if r.debug_run_id.getD "" = "" then none
        else some (r.debug_run_id.getD "")) = r.debug_run_id := by
      rcases hd with h0 | ⟨s, hs1, hs2⟩
      · rw [h0]; rfl
      · rw [hs1]; simp [hs2]
    cases r
    simp_all
  · intro hf
    refine ⟨_, add_fresh rows r hfresh, ?_⟩
    rw [hget]
    unfold SQLiteJobApplicationRepository.row_to_record
      SQLiteJobApplicationRepository.record_to_row
    simp only [ofValue_value, Option.map_some, hf]
    exact ⟨_, rfl, rfl⟩

/-- Witness for claim C9: a concrete record with an aware timestamp and
non-empty reason round-trips; a concrete record with an empty-string
reason reads back with a null reason. -/
theorem claim_C9_witness :
    (∃ rows', SQLiteJobApplicationRepository.add []
        { id := "a1", company_name := "Acme", job_title := "Dev",
          job_url := "https://a.test/1", status := .failed,
          applied_at := some ⟨100, some 0⟩, failure_reason := some "boom",
          debug_run_id := none } = some rows' ∧
      SQLiteJobApplicationRepository.get rows' "a1" = some
        { id := "a1", company_name := "Acme", job_title := "Dev",
          job_url := "https://a.test/1", status := .failed,
          applied_at := some ⟨100, some 0⟩, failure_reason := some "boom",
          debug_run_id := none })
    ∧ (∃ rows', SQLiteJobApplicationRepository.add []
        { id := "a2", company_name := "Acme", job_title := "Dev",
          job_url := "https://a.test/2", status := .failed,
          applied_at := none, failure_reason := some "",
          debug_run_id := none } = some rows' ∧
      ∃ r', SQLiteJobApplicationRepository.get rows' "a2" = some r' ∧
        r'.failure_reason = none) := by
  constructor
  · exact (claim_C9 []
      { id := "a1", company_name := "Acme", job_title := "Dev",
        job_url := "https://a.test/1", status := .failed,
        applied_at := some ⟨100, some 0⟩, failure_reason := some "boom",
        debug_run_id := none } (by simp)).1
      (Or.inr ⟨"boom", rfl, by decide⟩) (Or.inl rfl)
      (Or.inr ⟨⟨100, some 0⟩, rfl, rfl⟩)
  · exact (claim_C9 []
      { id := "a2", company_name := "Acme", job_title := "Dev",
        job_url := "https://a.test/2", status := .failed,
        applied_at := none, failure_reason := some "",
        debug_run_id := none } (by simp)).2 rfl

section CredRepoLemmas

open SQLiteCredentialRepository

lemma upsertGo_append_noMatch (c : AccountCredential) (st l : List CredRow)
    (h : ∀ row ∈ st, keyMatch row c = false) :
    upsertGo c (st ++ l) = st ++ upsertGo c l := by
  induction st with
  | nil => rfl
  | cons hd tl ih =>
      have hhd : keyMatch hd c = false := h hd (List.mem_cons_self hd tl)
      have ih2 := ih (fun row hrow => h row (List.mem_cons_of_mem hd hrow))
      simp [upsertGo, hhd, ih2]

lemma applyUpdate_applyUpdate (row : CredRow) (c : AccountCredential) :
    applyUpdate (applyUpdate row c) c = applyUpdate row c := rfl

end CredRepoLemmas

/-- Claim C7: starting from a table with no row for the shared
`(portal, tenant, email)` key and no colliding primary keys, upserting a
first and then a second credential with that key leaves exactly one row
for the key, whose `created_at` comes from the first credential and whose
`id`, `password` and `updated_at` come from the second; re-upserting the
same second credential leaves the table unchanged. -/
theorem claim_C7 (st : List SQLiteCredentialRepository.CredRow)
    (c1 c2 : AccountCredential)
    (hp : c1.portal = c2.portal) (ht : c1.tenant = c2.tenant)
    (he : c1.email = c2.email)
    (hnokey : ∀ row ∈ st, SQLiteCredentialRepository.keyMatch row c1 = false)
    (hnoid1 : ∀ row ∈ st, row.id ≠ c1.id)
    (hnoid2 : ∀ row ∈ st, row.id ≠ c2.id) :
    SQLiteCredentialRepository.upsert st c1
        = some (st ++ [SQLiteCredentialRepository.insertRow c1])
    ∧ SQLiteCredentialRepository.upsert
        (st ++ [SQLiteCredentialRepository.insertRow c1]) c2
        = some (st ++ [SQLiteCredentialRepository.applyUpdate
            (SQLiteCredentialRepository.insertRow c1) c2])
    ∧ SQLiteCredentialRepository.countKey
        (st ++ [SQLiteCredentialRepository.applyUpdate
            (SQLiteCredentialRepository.insertRow c1) c2]) c2 = 1
    ∧ SQLiteCredentialRepository.upsert
        (st ++ [SQLiteCredentialRepository.applyUpdate
            (SQLiteCredentialRepository.insertRow c1) c2]) c2
        = some (st ++ [SQLiteCredentialRepository.applyUpdate
            (SQLiteCredentialRepository.insertRow c1) c2])
    ∧ (SQLiteCredentialRepository.applyUpdate
          (SQLiteCredentialRepository.insertRow c1) c2).created_at
        = dt_to_iso c1.created_at
    ∧ (SQLiteCredentialRepository.applyUpdate
          (SQLiteCredentialRepository.insertRow c1) c2).password = c2.password
    ∧ (SQLiteCredentialRepository.applyUpdate
          (SQLiteCredentialRepository.insertRow c1) c2).updated_at
        = dt_to_iso c2.updated_at := by
  have hkm21 : ∀ row : SQLiteCredentialRepository.CredRow,
      SQLiteCredentialRepository.keyMatch row c2
        = SQLiteCredentialRepository.keyMatch row c1 := by
    intro row
    simp [SQLiteCredentialRepository.keyMatch, hp, ht, he]
  have hins2 : SQLiteCredentialRepository.keyMatch
      (SQLiteCredentialRepository.insertRow c1) c2 = true := by
    simp [SQLiteCredentialRepository.keyMatch,
      SQLiteCredentialRepository.insertRow, hp, ht, he]
  have hupd2 : SQLiteCredentialRepository.keyMatch
      (SQLiteCredentialRepository.applyUpdate
        (SQLiteCredentialRepository.insertRow c1) c2) c2 = true := by
    simp [SQLiteCredentialRepository.keyMatch,
      SQLiteCredentialRepository.applyUpdate,
      SQLiteCredentialRepository.insertRow, hp, ht, he]
  have hstteq : ∀ row ∈ st, SQLiteCredentialRepository.keyMatch row c2 = false := by
    intro row hrow
    rw [hkm21 row]
    exact hnokey row hrow
  have hany1 : st.any (fun row => SQLiteCredentialRepository.keyMatch row c1) = false := by
    simp only [List.any_eq_false]
    intro row hrow
    simp [hnokey row hrow]
  have hanyid1 : st.any (fun row => row.id = c1.id) = false := by
    simp only [List.any_eq_false]
    intro row hrow
    simp [hnoid1 row hrow]
  have first : SQLiteCredentialRepository.upsert st c1
      = some (st ++ [SQLiteCredentialRepository.insertRow c1]) := by
    unfold SQLiteCredentialRepository.upsert
    rw [hany1, hanyid1]
    rfl
  refine ⟨first, ?_, ?_, ?_, rfl, rfl, rfl⟩
  · unfold SQLiteCredentialRepository.upsert
    have hany2 : (st ++ [SQLiteCredentialRepository.insertRow c1]).any
        (fun row => SQLiteCredentialRepository.keyMatch row c2) = true := by
      simp [List.any_append, hins2]
    rw [hany2]
    have hfil : (st ++ [SQLiteCredentialRepository.insertRow c1]).filter
        (fun row => ! SQLiteCredentialRepository.keyMatch row c2) = st := by
      rw [List.filter_append]
      have h1 : st.filter (fun row => ! SQLiteCredentialRepository.keyMatch row c2) = st :=
        List.filter_eq_self.mpr (fun row hrow => by simp [hstteq row hrow])
      have h2 : [SQLiteCredentialRepository.insertRow c1].filter
          (fun row => ! SQLiteCredentialRepository.keyMatch row c2) = [] := by
        simp [hins2]
      rw [h1, h2, List.append_nil]
    rw [hfil]
    have hanyid2 : st.any (fun row => row.id = c2.id) = false := by
      simp only [List.any_eq_false]
      intro row hrow
      simp [hnoid2 row hrow]
    rw [hanyid2]
    simp only [if_true, if_false, Bool.false_eq_true, Bool.true_eq_false, ite_false, ite_true]
    rw [upsertGo_append_noMatch c2 st _ hstteq]
    simp [SQLiteCredentialRepository.upsertGo, hins2]
  · unfold SQLiteCredentialRepository.countKey
    rw [List.countP_append]
    have h1 : st.countP (fun row => SQLiteCredentialRepository.keyMatch row c2) = 0 := by
      rw [List.countP_eq_zero]
      intro row hrow
      simp [hstteq row hrow]
    rw [h1]
    simp [hupd2]
  · unfold SQLiteCredentialRepository.upsert
    have hany2 : (st ++ [SQLiteCredentialRepository.applyUpdate
        (SQLiteCredentialRepository.insertRow c1) c2]).any
        (fun row => SQLiteCredentialRepository.keyMatch row c2) = true := by
      simp [List.any_append, hupd2]
    rw [hany2]
    have hfil : (st ++ [SQLiteCredentialRepository.applyUpdate
        (SQLiteCredentialRepository.insertRow c1) c2]).filter
        (fun row => ! SQLiteCredentialRepository.keyMatch row c2) = st := by
      rw [List.filter_append]
      have h1 : st.filter (fun row => ! SQLiteCredentialRepository.keyMatch row c2) = st :=
        List.filter_eq_self.mpr (fun row hrow => by simp [hstteq row hrow])
      have h2 : [SQLiteCredentialRepository.applyUpdate
          (SQLiteCredentialRepository.insertRow c1) c2].filter
          (fun row => ! SQLiteCredentialRepository.keyMatch row c2) = [] := by
        simp [hupd2]
      rw [h1, h2, List.append_nil]
    rw [hfil]
    have hanyid2 : st.any (fun row => row.id = c2.id) = false := by
      simp only [List.any_eq_false]
      intro row hrow
      simp [hnoid2 row hrow]
    rw [hanyid2]
    simp only [if_true, if_false, Bool.false_eq_true, Bool.true_eq_false, ite_false, ite_true]
    rw [upsertGo_append_noMatch c2 st _ hstteq]
    simp [SQLiteCredentialRepository.upsertGo, hupd2, applyUpdate_applyUpdate]

/-- Witness for claim C7 at two concrete credentials sharing a key in an
empty table. -/
theorem claim_C7_witness :
    SQLiteCredentialRepository.upsert []
        { id := "cred-1", portal := "greenhouse", tenant := "acme",
          email := "u@x.test", password := "p1",
          created_at := ⟨10, some 0⟩, updated_at := ⟨10, some 0⟩ }
      = some [SQLiteCredentialRepository.insertRow
          { id := "cred-1", portal := "greenhouse", tenant := "acme",
            email := "u@x.test", password := "p1",
            created_at := ⟨10, some 0⟩, updated_at := ⟨10, some 0⟩ }]
    ∧ SQLiteCredentialRepository.countKey
        [SQLiteCredentialRepository.applyUpdate
          (SQLiteCredentialRepository.insertRow
            { id := "cred-1", portal := "greenhouse", tenant := "acme",
              email := "u@x.test", password := "p1",
              created_at := ⟨10, some 0⟩, updated_at := ⟨10, some 0⟩ })
          { id := "cred-2", portal := "greenhouse", tenant := "acme",
            email := "u@x.test", password := "p2",
            created_at := ⟨20, some 0⟩, updated_at := ⟨20, some 0⟩ }]
        { id := "cred-2", portal := "greenhouse", tenant := "acme",
          email := "u@x.test", password := "p2",
          created_at := ⟨20, some 0⟩, updated_at := ⟨20, some 0⟩ } = 1 := by
  have h := claim_C7 []
    { id := "cred-1", portal := "greenhouse", tenant := "acme",
      email := "u@x.test", password := "p1",
      created_at := ⟨10, some 0⟩, updated_at := ⟨10, some 0⟩ }
    { id := "cred-2", portal := "greenhouse", tenant := "acme",
      email := "u@x.test", password := "p2",
      created_at := ⟨20, some 0⟩, updated_at := ⟨20, some 0⟩ }
    rfl rfl rfl (by simp) (by simp) (by simp)
  refine ⟨?_, ?_⟩
  · have := h.1
    simpa using this
  · have := h.2.2.1
    simpa using this

section OrchestratorLemmas

open JobApplicationAgent

lemma finalize_shape (env : ApplyEnv) (record : JobApplicationRecord) (reason : String) :
    TryShape env record (finalize_failure env record reason) := by
  unfold finalize_failure
  cases h : env.send_info (failureMessage record reason) with
  | none =>
      exact Or.inr (Or.inl ⟨failedOf record reason, Or.inl ⟨reason, rfl⟩, rfl⟩)
  | some e =>
      exact Or.inr (Or.inr ⟨failedOf record reason, failureMessage record reason, e,
        Or.inl ⟨reason, rfl⟩, rfl, h⟩)

lemma tryBody_shape (env : ApplyEnv) (job : JobPostingRef) (ctx : RunContext)
    (record : JobApplicationRecord) :
    TryShape env record (tryBody env job ctx record) := by
  unfold tryBody step
  repeat' split
  all_goals first
    | exact Or.inl ⟨_, rfl⟩
    | exact finalize_shape env record _
    | exact Or.inr (Or.inl ⟨_, Or.inr (Or.inl rfl), rfl⟩)
    | exact Or.inr (Or.inr ⟨_, _, _, Or.inr (Or.inl rfl), rfl, by assumption⟩)
    | exact Or.inr (Or.inl ⟨_, Or.inr (Or.inr ⟨_, rfl⟩), rfl⟩)
    | exact Or.inr (Or.inr ⟨_, _, _, Or.inr (Or.inr ⟨_, rfl⟩), rfl, by assumption⟩)

lemma apply_to_job_shape (env : ApplyEnv) (job : JobPostingRef) (ctx : RunContext)
    (rid : String) :
    ApplyShape env job ctx rid (apply_to_job env job ctx rid) := by
  have hbody := tryBody_shape env job ctx (pendingRecord job ctx rid)
  unfold apply_to_job
  cases hds : (if env.hasDebugManager then env.debugStart else none) with
  | some e =>
      have hb : env.hasDebugManager = true := by
        cases h : env.hasDebugManager
        · simp [h] at hds
        · rfl
      have hdsv : env.debugStart = some e := by simpa [hb] using hds
      exact Or.inl ⟨e, rfl, rfl, hb, hdsv⟩
  | none =>
      dsimp only
      rcases hbody with ⟨e, hbe⟩ | ⟨r, hterm, hout⟩ | ⟨r, m, e, hterm, hout, hsend⟩
      · rw [hbe]
        dsimp only
        unfold finalize_failure
        dsimp only
        cases h2 : env.send_info (failureMessage (pendingRecord job ctx rid) e) with
        | none =>
            exact Or.inr (Or.inl ⟨failedOf (pendingRecord job ctx rid) e,
              Or.inl ⟨e, rfl⟩, rfl, rfl⟩)
        | some e2 =>
            exact Or.inr (Or.inr (Or.inl ⟨failedOf (pendingRecord job ctx rid) e,
              failureMessage (pendingRecord job ctx rid) e, e2,
              Or.inl ⟨e, rfl⟩, rfl, rfl, h2⟩))
      · rw [hout]
        exact Or.inr (Or.inl ⟨r, hterm, rfl, rfl⟩)
      · rw [hout]
        dsimp only
        unfold finalize_failure
        dsimp only
        cases h2 : env.send_info (failureMessage (pendingRecord job ctx rid) e) with
        | none =>
            exact Or.inr (Or.inr (Or.inr ⟨r, m, e, hterm, hsend, rfl, Or.inl rfl⟩))
        | some e2 =>
            exact Or.inr (Or.inr (Or.inr ⟨r, m, e, hterm, hsend, rfl,
              Or.inr ⟨failureMessage (pendingRecord job ctx rid) e, e2, rfl, h2⟩⟩))

lemma terminalFrom_isTerminal {record r : JobApplicationRecord}
    (h : TerminalFrom record r) : r.status.isTerminal = true := by
  rcases h with ⟨reason, rfl⟩ | rfl | ⟨t, rfl⟩ <;> rfl

lemma pendingRecord_invariant (job : JobPostingRef) (ctx : RunContext) (rid : String) :
    recordInvariant (pendingRecord job ctx rid) = true := rfl

lemma terminalFrom_invariant {job : JobPostingRef} {ctx : RunContext} {rid : String}
    {r : JobApplicationRecord}
    (h : TerminalFrom (pendingRecord job ctx rid) r) : recordInvariant r = true := by
  rcases h with ⟨reason, rfl⟩ | rfl | ⟨t, rfl⟩ <;> rfl

end OrchestratorLemmas

/-- Claim C5: every record `apply_to_job` persists or returns satisfies
both biconditionals `status = applied ⇔ applied_at ≠ null` and
`status ∈ {failed, skipped} ⇔ failure_reason ≠ null`, for every behaviour
of the collaborators. -/
theorem claim_C5 (env : JobApplicationAgent.ApplyEnv) (job : JobPostingRef)
    (ctx : RunContext) (rid : String) :
    (JobApplicationAgent.observableRecords
      (JobApplicationAgent.apply_to_job env job ctx rid)).all
      JobApplicationAgent.recordInvariant = true := by
  have hshape := apply_to_job_shape env job ctx rid
  rcases hshape with ⟨e, hev, hres, _, _⟩
    | ⟨r, hterm, hev, hres⟩
    | ⟨r, m, e, hterm, hev, hres, _⟩
    | ⟨r, m, e, hterm, _, hev, hres⟩
  · simp [JobApplicationAgent.observableRecords, JobApplicationAgent.writtenRecords,
      hev, hres, pendingRecord_invariant]
  · simp [JobApplicationAgent.observableRecords, JobApplicationAgent.writtenRecords,
      hev, hres, pendingRecord_invariant, terminalFrom_invariant hterm]
  · simp [JobApplicationAgent.observableRecords, JobApplicationAgent.writtenRecords,
      hev, hres, pendingRecord_invariant, terminalFrom_invariant hterm]
  · rcases hres with hok | ⟨m2, e2, herr, _⟩
    · simp [JobApplicationAgent.observableRecords, JobApplicationAgent.writtenRecords,
        hev, hok, pendingRecord_invariant, terminalFrom_invariant hterm,
        terminalFrom_invariant (Or.inl ⟨e, rfl⟩ :
          JobApplicationAgent.TerminalFrom (JobApplicationAgent.pendingRecord job ctx rid) _)]
    · simp [JobApplicationAgent.observableRecords, JobApplicationAgent.writtenRecords,
        hev, herr, pendingRecord_invariant, terminalFrom_invariant hterm,
        terminalFrom_invariant (Or.inl ⟨e, rfl⟩ :
          JobApplicationAgent.TerminalFrom (JobApplicationAgent.pendingRecord job ctx rid) _)]

/-- Counterexample to claim C1: when the `ui.send_info` announcing the
submitted application raises, the `except` clause calls
`_finalize_failure` again, so the run performs two terminal updates —
the second moving the stored record from `applied` to `failed` — and the
claimed "exactly one subsequent update" property is false. -/
theorem claim_C1_counterexample :
    JobApplicationAgent.recordMonotonicityClaim
      (JobApplicationAgent.apply_to_job JobApplicationAgent.envSendRaises
        JobApplicationAgent.jobC { run_id := "run-1" } "rec-1") = false
    ∧ (JobApplicationAgent.updatedRecords
        (JobApplicationAgent.apply_to_job JobApplicationAgent.envSendRaises
          JobApplicationAgent.jobC { run_id := "run-1" } "rec-1")).map
        JobApplicationRecord.status
      = [JobApplicationStatus.applied, JobApplicationStatus.failed] := by
  constructor <;> decide

/-- Claim C1 (amended): every run adds exactly the pending record first;
every repository update writes a terminal status (so no stored record
ever returns to `pending`); at most two updates occur; and when no
`ui.send_info` call raises (and `debug_manager.start` does not raise)
exactly one terminal update occurs. -/
theorem claim_C1_amended (env : JobApplicationAgent.ApplyEnv) (job : JobPostingRef)
    (ctx : RunContext) (rid : String) :
    JobApplicationAgent.addedRecords (JobApplicationAgent.apply_to_job env job ctx rid)
      = [JobApplicationAgent.pendingRecord job ctx rid]
    ∧ (JobApplicationAgent.updatedRecords
        (JobApplicationAgent.apply_to_job env job ctx rid)).all
        (fun r => r.status.isTerminal) = true
    ∧ (JobApplicationAgent.updatedRecords
        (JobApplicationAgent.apply_to_job env job ctx rid)).length ≤ 2
    ∧ ((∀ m, env.send_info m = none) →
        (env.hasDebugManager = true → env.debugStart = none) →
        (JobApplicationAgent.updatedRecords
          (JobApplicationAgent.apply_to_job env job ctx rid)).length = 1) := by
  have hshape := apply_to_job_shape env job ctx rid
  rcases hshape with ⟨e, hev, hres, hdm, hdst⟩
    | ⟨r, hterm, hev, hres⟩
    | ⟨r, m, e, hterm, hev, hres, hsend⟩
    | ⟨r, m, e, hterm, hsend, hev, hres⟩
  · refine ⟨?_, ?_, ?_, ?_⟩
    · simp [JobApplicationAgent.addedRecords, hev]
    · simp [JobApplicationAgent.updatedRecords, hev]
    · simp [JobApplicationAgent.updatedRecords, hev]
    · intro _ hds
      rw [hds hdm] at hdst
      exact absurd hdst (by simp)
  · refine ⟨?_, ?_, ?_, ?_⟩
    · simp [JobApplicationAgent.addedRecords, hev]
    · simp [JobApplicationAgent.updatedRecords, hev, terminalFrom_isTerminal hterm]
    · simp [JobApplicationAgent.updatedRecords, hev]
    · intro _ _
      simp [JobApplicationAgent.updatedRecords, hev]
  · refine ⟨?_, ?_, ?_, ?_⟩
    · simp [JobApplicationAgent.addedRecords, hev]
    · simp [JobApplicationAgent.updatedRecords, hev, terminalFrom_isTerminal hterm]
    · simp [JobApplicationAgent.updatedRecords, hev]
    · intro _ _
      simp [JobApplicationAgent.updatedRecords, hev]
  · refine ⟨?_, ?_, ?_, ?_⟩
    · simp [JobApplicationAgent.addedRecords, hev]
    · simp [JobApplicationAgent.updatedRecords, hev, terminalFrom_isTerminal hterm,
        terminalFrom_isTerminal (Or.inl ⟨e, rfl⟩ :
          JobApplicationAgent.TerminalFrom (JobApplicationAgent.pendingRecord job ctx rid) _)]
    · simp [JobApplicationAgent.updatedRecords, hev]
    · intro hsendall _
      rw [hsendall m] at hsend
      exact absurd hsend (by simp)

/-- Witness for the amended claim C1: a fully successful concrete run adds
the pending record and performs exactly one terminal update. -/
theorem claim_C1_amended_witness :
    JobApplicationAgent.addedRecords
      (JobApplicationAgent.apply_to_job JobApplicationAgent.envHappyRun
        JobApplicationAgent.jobC { run_id := "run-2" } "rec-2")
      = [JobApplicationAgent.pendingRecord JobApplicationAgent.jobC
          { run_id := "run-2" } "rec-2"]
    ∧ (JobApplicationAgent.updatedRecords
        (JobApplicationAgent.apply_to_job JobApplicationAgent.envHappyRun
          JobApplicationAgent.jobC { run_id := "run-2" } "rec-2")).length = 1 :=
  ⟨(claim_C1_amended JobApplicationAgent.envHappyRun JobApplicationAgent.jobC
      { run_id := "run-2" } "rec-2").1,
   (claim_C1_amended JobApplicationAgent.envHappyRun JobApplicationAgent.jobC
      { run_id := "run-2" } "rec-2").2.2.2 (fun _ => rfl) (fun _ => rfl)⟩

/-- Counterexample to claim C2: in an entirely successful debug run the
persisted and returned skipped record carries the failure reason
"Debug mode enabled: final submit skipped", not the spec string
"Debug mode: final submit skipped". -/
theorem claim_C2_counterexample :
    (JobApplicationAgent.apply_to_job JobApplicationAgent.envDebugRun
        JobApplicationAgent.jobC { run_id := "run-d", is_debug := true } "rec-d").result
      = Except.ok (JobApplicationAgent.skippedOf
          (JobApplicationAgent.pendingRecord JobApplicationAgent.jobC
            { run_id := "run-d", is_debug := true } "rec-d"))
    ∧ (JobApplicationAgent.skippedOf
        (JobApplicationAgent.pendingRecord JobApplicationAgent.jobC
          { run_id := "run-d", is_debug := true } "rec-d")).failure_reason
      = some "Debug mode enabled: final submit skipped"
    ∧ ¬ (JobApplicationAgent.skippedOf
        (JobApplicationAgent.pendingRecord JobApplicationAgent.jobC
          { run_id := "run-d", is_debug := true } "rec-d")).failure_reason
      = some "Debug mode: final submit skipped" := by
  refine ⟨by decide, by decide, by decide⟩

/-- Claim C2 (amended): a debug run that reaches the final-submit point
without a preceding failure persists and returns a record with status
`skipped` whose `failure_reason` is exactly
"Debug mode enabled: final submit skipped". -/
theorem claim_C2_amended (env : JobApplicationAgent.ApplyEnv) (job : JobPostingRef)
    (ctx : RunContext) (rid : String)
    (hdbg : ctx.is_debug = true)
    (hstart : env.hasDebugManager = true → env.debugStart = none)
    (hgoto : env.goto = none) (hwait : env.wait_for_load = none)
    (hcapture : ∀ stepName, env.captureStep stepName = none)
    (hoauth : env.detect_oauth_only_login = .ok false)
    (hacc : env.ensure_access = none)
    (hfill : env.fill_common_fields = none)
    (hwa : env.answer_questions = none)
    (hpq : env.fill_personal_questions = none)
    (hcaptcha : ∃ cr, env.handle_if_present = .ok cr ∧ cr.solved = true)
    (hsend : env.send_info (JobApplicationAgent.debugMessage job) = none) :
    JobApplicationAgent.apply_to_job env job ctx rid =
      { events := [JobApplicationAgent.RepoEvent.add
            (JobApplicationAgent.pendingRecord job ctx rid),
          JobApplicationAgent.RepoEvent.update
            (JobApplicationAgent.skippedOf
              (JobApplicationAgent.pendingRecord job ctx rid))],
        result := Except.ok (JobApplicationAgent.skippedOf
          (JobApplicationAgent.pendingRecord job ctx rid)) }
    ∧ (JobApplicationAgent.skippedOf
        (JobApplicationAgent.pendingRecord job ctx rid)).failure_reason
      = some "Debug mode enabled: final submit skipped" := by
  obtain ⟨cr, hcr, hsol⟩ := hcaptcha
  refine ⟨?_, rfl⟩
  unfold JobApplicationAgent.apply_to_job JobApplicationAgent.tryBody
    JobApplicationAgent.step JobApplicationAgent.captureDebugStep
  cases hb : env.hasDebugManager with
  | false =>
      simp [hb, hgoto, hwait, hdbg, hoauth, hacc, hfill, hwa, hpq, hcr, hsol, hsend]
  | true =>
      simp [hb, hstart hb, hcapture, hgoto, hwait, hdbg, hoauth, hacc, hfill,
        hwa, hpq, hcr, hsol, hsend]

/-- Witness for the amended claim C2 at a concrete successful debug run. -/
theorem claim_C2_amended_witness :
    JobApplicationAgent.apply_to_job JobApplicationAgent.envDebugRun
        JobApplicationAgent.jobC { run_id := "run-d2", is_debug := true } "rec-d2" =
      { events := [JobApplicationAgent.RepoEvent.add
            (JobApplicationAgent.pendingRecord JobApplicationAgent.jobC
              { run_id := "run-d2", is_debug := true } "rec-d2"),
          JobApplicationAgent.RepoEvent.update
            (JobApplicationAgent.skippedOf
              (JobApplicationAgent.pendingRecord JobApplicationAgent.jobC
                { run_id := "run-d2", is_debug := true } "rec-d2"))],
        result := Except.ok (JobApplicationAgent.skippedOf
          (JobApplicationAgent.pendingRecord JobApplicationAgent.jobC
            { run_id := "run-d2", is_debug := true } "rec-d2")) }
    ∧ (JobApplicationAgent.skippedOf
        (JobApplicationAgent.pendingRecord JobApplicationAgent.jobC
          { run_id := "run-d2", is_debug := true } "rec-d2")).failure_reason
      = some "Debug mode enabled: final submit skipped" :=
  claim_C2_amended JobApplicationAgent.envDebugRun JobApplicationAgent.jobC
    { run_id := "run-d2", is_debug := true } "rec-d2"
    rfl (fun _ => rfl) rfl rfl (fun _ => rfl) rfl rfl rfl rfl rfl
    ⟨{ solved := true }, rfl, rfl⟩ rfl

section StatusOrderLemmas

open SQLiteJobApplicationRepository

instance rowDescTotal : IsTotal Row (fun a b => appliedAtDescLe a b = true) := by
  constructor
  intro a b
  cases ha : a.applied_at <;> cases hb : b.applied_at <;>
    simp [appliedAtDescLe, ha, hb]
  omega

instance rowDescTrans : IsTrans Row (fun a b => appliedAtDescLe a b = true) := by
  constructor
  intro a b c hab hbc
  cases ha : a.applied_at <;> cases hb : b.applied_at <;> cases hc : c.applied_at <;>
    simp_all [appliedAtDescLe]
  omega

lemma sorted_filterMap_ne_nil {rows s : List Row}
    (hperm : s.Perm rows) (hvalid : rows.all validStatusRow = true)
    (hne : rows ≠ []) : s.filterMap row_to_record ≠ [] := by
  cases s with
  | nil =>
      exfalso
      apply hne
      have := hperm.length_eq
      simp at this
      exact List.length_eq_zero.mp this.symm
  | cons h t =>
      have hmem : h ∈ rows := hperm.mem_iff.mp (List.mem_cons_self h t)
      have hv : validStatusRow h = true := by
        rw [List.all_eq_true] at hvalid
        exact hvalid h hmem
      unfold validStatusRow at hv
      rcases Option.isSome_iff_exists.mp hv with ⟨st, hst⟩
      have : row_to_record h = some
          { id := h.id, company_name := h.company_name, job_title := h.job_title
            job_url := h.job_url, status := st
            applied_at := h.applied_at.map iso_to_dt
            failure_reason := if h.failure_reason = "" then none else some h.failure_reason
            debug_run_id := if h.debug_run_id = "" then none else some h.debug_run_id } := by
        unfold row_to_record
        rw [hst]
        rfl
      simp [this]

end StatusOrderLemmas

/-- Counterexample to claim C8: with eleven stored records the reply lists
the final ten entries of the descending listing — the ten least recently
applied — not the ten most recent ones: the most recent company `C01` is
missing from the reply, which instead ends with the oldest, `C11`. -/
theorem claim_C8_counterexample :
    TelegramBot.handle_status TelegramBot.elevenRows
      ≠ TelegramBot.claimedStatusReply TelegramBot.elevenRows
    ∧ ((SQLiteJobApplicationRepository.list_all TelegramBot.elevenRows).drop
        ((SQLiteJobApplicationRepository.list_all TelegramBot.elevenRows).length - 10)).map
        JobApplicationRecord.company_name
      = ["C02", "C03", "C04", "C05", "C06", "C07", "C08", "C09", "C10", "C11"]
    ∧ ((SQLiteJobApplicationRepository.list_all TelegramBot.elevenRows).take 10).map
        JobApplicationRecord.company_name
      = ["C01", "C02", "C03", "C04", "C05", "C06", "C07", "C08", "C09", "C10"] := by
  refine ⟨by decide, by decide, by decide⟩

/-- Claim C8 (amended): with no records `/status` replies
"No applications yet."; otherwise the reply lists, each with its status,
the final ten entries of a listing that is a permutation of the table
sorted by `applied_at` descending with nulls last — that is, the ten
least recently applied records rather than the ten most recent. -/
theorem claim_C8_amended (rows : List SQLiteJobApplicationRepository.Row) :
    (rows = [] → TelegramBot.handle_status rows = "No applications yet.")
    ∧ (rows.all SQLiteJobApplicationRepository.validStatusRow = true → rows ≠ [] →
        ∃ s : List SQLiteJobApplicationRepository.Row, s.Perm rows
          ∧ List.Sorted
              (fun a b => SQLiteJobApplicationRepository.appliedAtDescLe a b = true) s
          ∧ TelegramBot.handle_status rows =
              "Recent applications:\n" ++ String.intercalate "\n"
                (((s.filterMap SQLiteJobApplicationRepository.row_to_record).drop
                  ((s.filterMap SQLiteJobApplicationRepository.row_to_record).length
                    - 10)).map TelegramBot.statusLine)) := by
  constructor
  · intro h
    subst h
    rfl
  · intro hvalid hne
    refine ⟨List.insertionSort
        (fun a b => SQLiteJobApplicationRepository.appliedAtDescLe a b = true) rows,
      List.perm_insertionSort _ rows, List.sorted_insertionSort _ rows, ?_⟩
    have hrecs : SQLiteJobApplicationRepository.list_all rows ≠ [] :=
      sorted_filterMap_ne_nil (List.perm_insertionSort _ rows) hvalid hne
    unfold TelegramBot.handle_status
    dsimp only
    rw [if_neg hrecs]
    rfl

/-- Witness for the amended claim C8 at an empty table and a one-row table. -/
theorem claim_C8_amended_witness :
    (TelegramBot.handle_status [] = "No applications yet.")
    ∧ (∃ s : List SQLiteJobApplicationRepository.Row,
        s.Perm [TelegramBot.mkAppliedRow "r01" "C01" 11]
        ∧ List.Sorted
            (fun a b => SQLiteJobApplicationRepository.appliedAtDescLe a b = true) s
        ∧ TelegramBot.handle_status [TelegramBot.mkAppliedRow "r01" "C01" 11] =
            "Recent applications:\n" ++ String.intercalate "\n"
              (((s.filterMap SQLiteJobApplicationRepository.row_to_record).drop
                ((s.filterMap SQLiteJobApplicationRepository.row_to_record).length
                  - 10)).map TelegramBot.statusLine)) :=
  ⟨(claim_C8_amended []).1 rfl,
   (claim_C8_amended [TelegramBot.mkAppliedRow "r01" "C01" 11]).2 (by decide) (by decide)⟩

section AgentLoopLemmas

open BrowserAgent

lemma chain'_le_of_all_eq {l : List Nat} {s : Nat} (h : ∀ x ∈ l, x = s) :
    List.Chain' (· ≤ ·) l := by
  induction l with
  | nil => exact List.chain'_nil
  | cons a t ih =>
      cases t with
      | nil => exact List.chain'_singleton a
      | cons b u =>
          refine List.Chain'.cons ?_ (ih (fun x hx => h x (List.mem_cons_of_mem a hx)))
          rw [h a (by simp), h b (by simp)]

lemma runCalls_shape (env : AgentEnv) (s : Nat) :
    ∀ (calls : List ToolCall) (msgs : List ChatMsg) (steps : List AgentStep),
    ∃ ds : List AgentStep,
      (∀ x ∈ ds, x.step_number = s) ∧
      ((∃ msgs', runCalls env s calls msgs steps = .inl (msgs', steps ++ ds))
       ∨ (∃ res : AgentResult, runCalls env s calls msgs steps = .inr res
            ∧ res.steps_taken = steps ++ ds)) := by
  intro calls
  induction calls with
  | nil =>
      intro msgs steps
      exact ⟨[], by simp, Or.inl ⟨msgs, by simp [runCalls]⟩⟩
  | cons tc rest ih =>
      intro msgs steps
      by_cases hd : tc.name = "done"
      · refine ⟨[], by simp, Or.inr ⟨doneResult tc steps, ?_, by simp [doneResult]⟩⟩
        simp [runCalls, hd]
      · obtain ⟨ds, hds, hout⟩ := ih
          (msgs ++ [ChatMsg.assistantToolCall (callId s tc.name) tc.name tc.arguments,
                    ChatMsg.toolResult (callId s tc.name) (env.execResult steps.length)])
          (steps ++ [{ step_number := s, tool_name := tc.name
                       tool_args := tc.arguments
                       tool_result := env.execResult steps.length }])
        refine ⟨{ step_number := s, tool_name := tc.name, tool_args := tc.arguments
                  tool_result := env.execResult steps.length } :: ds, ?_, ?_⟩
        · intro x hx
          rcases List.mem_cons.mp hx with rfl | hx2
          · rfl
          · exact hds x hx2
        · have hred : runCalls env s (tc :: rest) msgs steps
              = runCalls env s rest
                  (msgs ++ [ChatMsg.assistantToolCall (callId s tc.name) tc.name tc.arguments,
                            ChatMsg.toolResult (callId s tc.name) (env.execResult steps.length)])
                  (steps ++ [{ step_number := s, tool_name := tc.name
                               tool_args := tc.arguments
                               tool_result := env.execResult steps.length }]) := by
            simp [runCalls, hd]
          rw [hred]
          rcases hout with ⟨msgs', hm⟩ | ⟨res, hr, hrs⟩
          · exact Or.inl ⟨msgs', by rw [hm]; simp⟩
          · exact Or.inr ⟨res, hr, by rw [hrs]; simp⟩

end AgentLoopLemmas

section AgentLoopLemmas2

open BrowserAgent

lemma chain'_append_bound {l1 l2 : List Nat} (s : Nat)
    (h1 : List.Chain' (· ≤ ·) l1) (hlt : ∀ x ∈ l1, x < s) (heq : ∀ x ∈ l2, x = s) :
    List.Chain' (· ≤ ·) (l1 ++ l2) := by
  rw [List.chain'_append]
  refine ⟨h1, chain'_le_of_all_eq heq, ?_⟩
  intro a ha b hb
  obtain ⟨hne, hae⟩ := List.mem_getLast?_eq_getLast ha
  have ha2 : a ∈ l1 := by rw [hae]; exact List.getLast_mem hne
  have hb2 : b ∈ l2 := by
    cases l2 with
    | nil => simp at hb
    | cons b0 t =>
        have hb0 : b0 = b := by simpa using hb
        rw [← hb0]
        exact List.mem_cons_self b0 t
  rw [heq b hb2]
  exact Nat.le_of_lt (hlt a ha2)

lemma loop_succ_nil (env : AgentEnv) (task : AgentTask) {s : Nat}
    (h : (env.llm s).tool_calls = []) (rem : Nat) (msgs : List ChatMsg)
    (steps : List AgentStep) :
    loop env task (rem + 1) s msgs steps
      = loop env task rem (s + 1)
          (match (env.llm s).text with
            | some t => if t = "" then msgs else msgs ++ [ChatMsg.assistantText t]
            | none => msgs) steps := by
  simp only [loop, h]

lemma loop_succ_cons (env : AgentEnv) (task : AgentTask) {s : Nat}
    {tc : ToolCall} {rest : List ToolCall}
    (h : (env.llm s).tool_calls = tc :: rest) (rem : Nat) (msgs : List ChatMsg)
    (steps : List AgentStep) :
    loop env task (rem + 1) s msgs steps
      = match runCalls env s (tc :: rest) msgs steps with
        | .inr result => result
        | .inl (msgs', steps') => loop env task rem (s + 1) msgs' steps' := by
  simp only [loop, h]

lemma loop_steps_bound (env : AgentEnv) (task : AgentTask) :
    ∀ (rem s : Nat) (msgs : List ChatMsg) (steps : List AgentStep),
      List.Chain' (· ≤ ·) (steps.map AgentStep.step_number) →
      (∀ x ∈ steps, x.step_number < s) →
      List.Chain' (· ≤ ·)
          ((loop env task rem s msgs steps).steps_taken.map AgentStep.step_number)
        ∧ ∀ x ∈ (loop env task rem s msgs steps).steps_taken,
            x.step_number < s + rem := by
  intro rem
  induction rem with
  | zero =>
      intro s msgs steps hch hbd
      refine ⟨hch, ?_⟩
      intro x hx
      have := hbd x hx
      omega
  | succ rem ih =>
      intro s msgs steps hch hbd
      cases hcalls : (env.llm s).tool_calls with
      | nil =>
          rw [loop_succ_nil env task hcalls rem msgs steps]
          have h2 := ih (s + 1)
            (match (env.llm s).text with
              | some t => if t = "" then msgs else msgs ++ [ChatMsg.assistantText t]
              | none => msgs) steps hch
            (fun x hx => Nat.lt_succ_of_lt (hbd x hx))
          refine ⟨h2.1, ?_⟩
          intro x hx
          have := h2.2 x hx
          omega
      | cons tc rest =>
          rw [loop_succ_cons env task hcalls rem msgs steps]
          obtain ⟨ds, hds, hout⟩ := runCalls_shape env s (tc :: rest) msgs steps
          have hchain2 : List.Chain' (· ≤ ·)
              ((steps ++ ds).map AgentStep.step_number) := by
            rw [List.map_append]
            refine chain'_append_bound s hch ?_ ?_
            · intro x hx
              obtain ⟨y, hy, rfl⟩ := List.mem_map.mp hx
              exact hbd y hy
            · intro x hx
              obtain ⟨y, hy, rfl⟩ := List.mem_map.mp hx
              exact hds y hy
          have hbd2 : ∀ x ∈ steps ++ ds, x.step_number < s + 1 := by
            intro x hx
            rcases List.mem_append.mp hx with h1 | h2
            · exact Nat.lt_succ_of_lt (hbd x h1)
            · rw [hds x h2]
              omega
          rcases hout with ⟨msgs', hm⟩ | ⟨res, hr, hrs⟩
          · rw [hm]
            have h2 := ih (s + 1) msgs' (steps ++ ds) hchain2 hbd2
            refine ⟨h2.1, ?_⟩
            intro x hx
            have := h2.2 x hx
            omega
          · rw [hr]
            rw [hrs]
            refine ⟨hchain2, ?_⟩
            intro x hx
            have := hbd2 x hx
            omega

end AgentLoopLemmas2

/-- Counterexample to claim C3: after a text-only turn and a turn carrying
two tool calls, the two recorded steps both carry step number 1 — a
repetition, and a gap at 0 — so the numbers are not `0, 1, 2, …`. -/
theorem claim_C3_counterexample :
    ((BrowserAgent.execute_task BrowserAgent.envTextThenTwoCalls
        { objective := "Apply" }).steps_taken.map BrowserAgent.AgentStep.step_number
      = [1, 1])
    ∧ ¬ BrowserAgent.stepNumbersAreRange
        (BrowserAgent.execute_task BrowserAgent.envTextThenTwoCalls
          { objective := "Apply" }) := by
  constructor
  · decide
  · unfold BrowserAgent.stepNumbersAreRange
    decide

/-- Claim C3 (amended): step numbers equal the index of the LLM turn that
executed the call, so across any run they form a non-decreasing sequence
bounded by `task.max_steps`; they may repeat within a multi-call turn
and skip the indices of text-only turns. -/
theorem claim_C3_amended (env : BrowserAgent.AgentEnv) (task : BrowserAgent.AgentTask) :
    List.Chain' (· ≤ ·)
      ((BrowserAgent.execute_task env task).steps_taken.map
        BrowserAgent.AgentStep.step_number)
    ∧ (BrowserAgent.execute_task env task).steps_taken.all
        (fun st => decide (st.step_number < task.max_steps)) = true := by
  have h := loop_steps_bound env task task.max_steps 0
    [BrowserAgent.ChatMsg.system BrowserAgent.SYSTEM_PROMPT,
     BrowserAgent.ChatMsg.user task.objective] []
    (by simp) (by simp)
  refine ⟨h.1, ?_⟩
  rw [List.all_eq_true]
  intro st hst
  have := h.2 st hst
  simp only [decide_eq_true_eq]
  omega

section AgentLoopLemmas3

open BrowserAgent

lemma callSteps_length (env : AgentEnv) (s : Nat) :
    ∀ (calls : List ToolCall) (base : Nat),
      (callSteps env s base calls).length = calls.length := by
  intro calls
  induction calls with
  | nil => intro base; rfl
  | cons tc rest ih => intro base; simp [callSteps, ih (base + 1)]

lemma runCalls_no_done (env : AgentEnv) (s : Nat) :
    ∀ (calls : List ToolCall) (msgs : List ChatMsg) (steps : List AgentStep),
      (∀ tc ∈ calls, tc.name ≠ "done") →
      ∃ msgs', runCalls env s calls msgs steps
        = .inl (msgs', steps ++ callSteps env s steps.length calls) := by
  intro calls
  induction calls with
  | nil =>
      intro msgs steps _
      exact ⟨msgs, by simp [runCalls, callSteps]⟩
  | cons tc rest ih =>
      intro msgs steps hnd
      have htc : tc.name ≠ "done" := hnd tc (List.mem_cons_self tc rest)
      obtain ⟨msgs', hm⟩ := ih
        (msgs ++ [ChatMsg.assistantToolCall (callId s tc.name) tc.name tc.arguments,
                  ChatMsg.toolResult (callId s tc.name) (env.execResult steps.length)])
        (steps ++ [{ step_number := s, tool_name := tc.name
                     tool_args := tc.arguments
                     tool_result := env.execResult steps.length }])
        (fun x hx => hnd x (List.mem_cons_of_mem tc hx))
      refine ⟨msgs', ?_⟩
      have hred : runCalls env s (tc :: rest) msgs steps
          = runCalls env s rest
              (msgs ++ [ChatMsg.assistantToolCall (callId s tc.name) tc.name tc.arguments,
                        ChatMsg.toolResult (callId s tc.name) (env.execResult steps.length)])
              (steps ++ [{ step_number := s, tool_name := tc.name
                           tool_args := tc.arguments
                           tool_result := env.execResult steps.length }]) := by
        simp [runCalls, htc]
      rw [hred, hm]
      simp [callSteps]

lemma loop_no_done (env : AgentEnv) (task : AgentTask) :
    ∀ (rem s : Nat) (msgs : List ChatMsg) (steps : List AgentStep),
      (∀ n, s ≤ n → n < s + rem → ∀ tc ∈ (env.llm n).tool_calls, tc.name ≠ "done") →
      loop env task rem s msgs steps =
        { status := "failed", reason := some (maxStepsReason task.max_steps)
          data := [], steps_taken := steps ++ stepsSegment env s rem steps.length } := by
  intro rem
  induction rem with
  | zero =>
      intro s msgs steps _
      simp [loop, stepsSegment]
  | succ rem ih =>
      intro s msgs steps hnd
      cases hcalls : (env.llm s).tool_calls with
      | nil =>
          rw [loop_succ_nil env task hcalls rem msgs steps]
          rw [ih (s + 1) _ steps
            (fun n h1 h2 => hnd n (by omega) (by omega))]
          have hseg : stepsSegment env s (rem + 1) steps.length
              = stepsSegment env (s + 1) rem steps.length := by
            rw [stepsSegment]
            simp [hcalls, callSteps]
          rw [hseg]
      | cons tc rest =>
          rw [loop_succ_cons env task hcalls rem msgs steps]
          obtain ⟨msgs', hm⟩ := runCalls_no_done env s (tc :: rest) msgs steps
            (by
              intro x hx
              exact hnd s (by omega) (by omega) x (by rw [hcalls]; exact hx))
          rw [hm]
          dsimp only
          rw [ih (s + 1) msgs' (steps ++ callSteps env s steps.length (tc :: rest))
            (fun n h1 h2 => hnd n (by omega) (by omega))]
          have hseg : stepsSegment env s (rem + 1) steps.length
              = callSteps env s steps.length (tc :: rest)
                ++ stepsSegment env (s + 1) rem
                    (steps.length + (callSteps env s steps.length (tc :: rest)).length) := by
            rw [stepsSegment]
            simp [hcalls]
          rw [hseg]
          simp [callSteps_length]

lemma runCalls_congr (env env' : AgentEnv) (s : Nat)
    (hexec : ∀ k, env'.execResult k = env.execResult k) :
    ∀ (calls : List ToolCall) (msgs : List ChatMsg) (steps : List AgentStep),
      runCalls env' s calls msgs steps = runCalls env s calls msgs steps := by
  intro calls
  induction calls with
  | nil => intro msgs steps; rfl
  | cons tc rest ih =>
      intro msgs steps
      by_cases hd : tc.name = "done"
      · simp [runCalls, hd]
      · simp only [runCalls, hd, ite_false, hexec steps.length]
        exact ih _ _

lemma loop_congr (env env' : AgentEnv) (task : AgentTask)
    (hexec : ∀ k, env'.execResult k = env.execResult k) :
    ∀ (rem s : Nat) (msgs : List ChatMsg) (steps : List AgentStep),
      (∀ n, s ≤ n → n < s + rem → env'.llm n = env.llm n) →
      loop env' task rem s msgs steps = loop env task rem s msgs steps := by
  intro rem
  induction rem with
  | zero => intro s msgs steps _; rfl
  | succ rem ih =>
      intro s msgs steps hllm
      have hs : env'.llm s = env.llm s := hllm s (by omega) (by omega)
      cases hcalls : (env.llm s).tool_calls with
      | nil =>
          have hcalls' : (env'.llm s).tool_calls = [] := by rw [hs, hcalls]
          rw [loop_succ_nil env' task hcalls' rem msgs steps,
            loop_succ_nil env task hcalls rem msgs steps, hs]
          exact ih (s + 1) _ steps (fun n h1 h2 => hllm n (by omega) (by omega))
      | cons tc rest =>
          have hcalls' : (env'.llm s).tool_calls = tc :: rest := by rw [hs, hcalls]
          rw [loop_succ_cons env' task hcalls' rem msgs steps,
            loop_succ_cons env task hcalls rem msgs steps,
            runCalls_congr env env' s hexec (tc :: rest) msgs steps]
          cases runCalls env s (tc :: rest) msgs steps with
          | inr result => rfl
          | inl p =>
              exact ih (s + 1) p.1 p.2 (fun n h1 h2 => hllm n (by omega) (by omega))

end AgentLoopLemmas3

/-- Claim C4: when the LLM never emits a `done` tool call within the step
budget, `execute_task` returns status `failed` with reason exactly
`"Agent exceeded maximum steps (N)"` for `N = task.max_steps`, with
`steps_taken` equal to all steps accumulated over the `max_steps` turns;
and the loop consults at most `task.max_steps` LLM turns: replacing every
turn from index `max_steps` on by an immediate `done` leaves the result
unchanged. -/
theorem claim_C4 (env : BrowserAgent.AgentEnv) (task : BrowserAgent.AgentTask)
    (h : ∀ n, n < task.max_steps →
      ∀ tc ∈ (env.llm n).tool_calls, tc.name ≠ "done") :
    BrowserAgent.execute_task env task =
      { status := "failed"
        reason := some (BrowserAgent.maxStepsReason task.max_steps)
        data := []
        steps_taken := BrowserAgent.stepsSegment env 0 task.max_steps 0 }
    ∧ BrowserAgent.execute_task env task
      = BrowserAgent.execute_task (BrowserAgent.truncEnv env task.max_steps) task := by
  have h1 : BrowserAgent.execute_task env task =
      { status := "failed"
        reason := some (BrowserAgent.maxStepsReason task.max_steps)
        data := []
        steps_taken := BrowserAgent.stepsSegment env 0 task.max_steps 0 } := by
    unfold BrowserAgent.execute_task
    rw [loop_no_done env task task.max_steps 0 _ []
      (fun n hn1 hn2 => h n (by omega))]
    rfl
  refine ⟨h1, ?_⟩
  have h2 : BrowserAgent.execute_task (BrowserAgent.truncEnv env task.max_steps) task
      = BrowserAgent.execute_task env task := by
    unfold BrowserAgent.execute_task
    exact loop_congr env (BrowserAgent.truncEnv env task.max_steps) task
      (fun k => rfl) task.max_steps 0 _ []
      (fun n hn1 hn2 => by simp [BrowserAgent.truncEnv, show n < task.max_steps by omega])
  rw [h2]

/-- Witness for claim C4: an LLM that answers every turn with a single
`goto` call exhausts a budget of three steps. -/
theorem claim_C4_witness :
    BrowserAgent.execute_task BrowserAgent.envGotoForever
        { objective := "Loop", max_steps := 3 } =
      { status := "failed"
        reason := some (BrowserAgent.maxStepsReason 3)
        data := []
        steps_taken := BrowserAgent.stepsSegment BrowserAgent.envGotoForever 0 3 0 }
    ∧ BrowserAgent.execute_task BrowserAgent.envGotoForever
        { objective := "Loop", max_steps := 3 }
      = BrowserAgent.execute_task
          (BrowserAgent.truncEnv BrowserAgent.envGotoForever 3)
          { objective := "Loop", max_steps := 3 } :=
  claim_C4 BrowserAgent.envGotoForever { objective := "Loop", max_steps := 3 }
    (by
      intro n hn tc htc
      have : tc = { name := "goto", arguments := [("url", "https://x.test/a")] } := by
        simpa [BrowserAgent.envGotoForever] using htc
      rw [this]
      decide)
